import Mathlib

/-!
# Vlog-post backend: request validation and persistence mapping

A shallow embedding of `src/index.js`: the three zod schemas, the Express route
handlers and the calls they make on the Prisma client.

* JavaScript values are the inductive `JsValue`; numbers are exact rationals plus the
  two infinities and NaN (every finite double is a rational, `-0` is identified with `0`).
* The parts of the zod library the schemas use (`z.string`, `z.number`, `z.boolean`,
  `.optional`, `z.object`, `safeParse`) are an interpreter over a small schema syntax, so
  that each schema below reads like its declaration in the source.  The library is zod 3:
  the handlers read the error list as `validation.error.errors`.
* The Prisma client is a parameter of every handler: a function from a call and a store
  state to a result and a new store state.  Each handler returns its response, the final
  store state and the list of calls it made.
-/

namespace VlogBackend

/-! ## JavaScript values -/

/-- A JavaScript number: a finite value (kept exact), an infinity, or NaN. -/
inductive JsNumber where
  | finite (q : ℚ)
  | posInf
  | negInf
  | nan
  deriving DecidableEq

/-- A JavaScript value as it can occur in a request body or in a Prisma argument. -/
inductive JsValue where
  | undefined
  | null
  | bool (b : Bool)
  | number (n : JsNumber)
  | string (s : String)
  | array (items : List JsValue)
  | object (props : List (String × JsValue))

/-- The key `key` is an own property of the property list (`key in data`). -/
def hasField (props : List (String × JsValue)) (key : String) : Bool :=
  props.any (fun p => p.1 == key)

/-- Property read on a property list: the last binding of `key` wins (as in `JSON.parse`
and in object literals), and a key that is not bound reads as `undefined`. -/
def getField (props : List (String × JsValue)) (key : String) : JsValue :=
  props.foldl (fun acc p => if p.1 = key then p.2 else acc) JsValue.undefined

/-- Property read `value[key]` as the handlers use it when destructuring. -/
def JsValue.get (v : JsValue) (key : String) : JsValue :=
  match v with
  | JsValue.object props => getField props key
  | _ => JsValue.undefined

/-- The test `Number.isInteger`. -/
def JsNumber.isInteger : JsNumber → Bool
  | JsNumber.finite q => q.den == 1
  | _ => false

/-- The comparison `a < b` of JavaScript numbers against a finite bound `b`. -/
def JsNumber.ltFinite : JsNumber → ℚ → Bool
  | JsNumber.finite q, b => decide (q < b)
  | JsNumber.negInf, _ => true
  | _, _ => false

/-- The comparison `a <= b` of JavaScript numbers against a finite bound `b`. -/
def JsNumber.leFinite : JsNumber → ℚ → Bool
  | JsNumber.finite q, b => decide (q ≤ b)
  | JsNumber.negInf, _ => true
  | _, _ => false

/-! ## The zod library, as far as the schemas use it -/

/-- The type tags zod computes for a value (`getParsedType`). -/
inductive ZodParsedType where
  | string | nan | number | boolean | undefined | null | array | object
  deriving DecidableEq, Repr

/-- The tag's name as it is printed in zod's messages. -/
def ZodParsedType.name : ZodParsedType → String
  | ZodParsedType.string => "string"
  | ZodParsedType.nan => "nan"
  | ZodParsedType.number => "number"
  | ZodParsedType.boolean => "boolean"
  | ZodParsedType.undefined => "undefined"
  | ZodParsedType.null => "null"
  | ZodParsedType.array => "array"
  | ZodParsedType.object => "object"

/-- The function `getParsedType` of zod. -/
def getParsedType : JsValue → ZodParsedType
  | JsValue.undefined => ZodParsedType.undefined
  | JsValue.null => ZodParsedType.null
  | JsValue.bool _ => ZodParsedType.boolean
  | JsValue.number JsNumber.nan => ZodParsedType.nan
  | JsValue.number _ => ZodParsedType.number
  | JsValue.string _ => ZodParsedType.string
  | JsValue.array _ => ZodParsedType.array
  | JsValue.object _ => ZodParsedType.object

/-- One entry of `validation.error.errors`: the issue code, the path of the offending
field and the message.  (The further per-code keys of a zod issue are not modelled.) -/
structure ZodIssue where
  code : String
  path : List String
  message : String
  deriving DecidableEq, Repr

/-- The message of zod's default error map for an `invalid_type` issue. -/
def invalidTypeMessage (expected received : String) : String :=
  if received = "undefined" then "Required" else "Expected " ++ expected ++ ", received " ++ received

/-- The `invalid_type` issue a failed type check adds. -/
def invalidTypeIssue (path : List String) (expected : String) (received : ZodParsedType) : ZodIssue :=
  { code := "invalid_type", path := path, message := invalidTypeMessage expected received.name }

/-- The status a zod parser returns. -/
inductive ParseStatus where
  | valid | dirty | aborted
  deriving DecidableEq, Repr

/-- What a zod parser returns: its status, its output value, and the issues it added to
the parse context, in the order it added them. -/
structure ParseReturn where
  status : ParseStatus
  value : JsValue
  issues : List ZodIssue

/-- The return value `INVALID`, with the issues added before it. -/
def ParseReturn.invalid (issues : List ZodIssue) : ParseReturn :=
  { status := ParseStatus.aborted, value := JsValue.undefined, issues := issues }

/-- The status of a parser that ran its checks: dirty once a check added an issue. -/
def statusOfIssues (issues : List ZodIssue) : ParseStatus :=
  if issues.isEmpty then ParseStatus.valid else ParseStatus.dirty

/-! ### The e-mail pattern -/

/-- Characters of the class `[A-Z0-9_'+\-\.]` under the flag `i`. -/
def isLocalChar (c : Char) : Bool :=
  c.isAlphanum || c == '_' || c == '\'' || c == '+' || c == '-' || c == '.'

/-- Characters of the class `[A-Z0-9_+-]` under the flag `i`. -/
def isLocalEndChar (c : Char) : Bool :=
  c.isAlphanum || c == '_' || c == '+' || c == '-'

/-- Characters of the class `[A-Z0-9\-]` under the flag `i`. -/
def isLabelChar (c : Char) : Bool :=
  c.isAlphanum || c == '-'

/-- The text contains two consecutive dots. -/
def hasDoubleDot : List Char → Bool
  | '.' :: '.' :: _ => true
  | _ :: rest => hasDoubleDot rest
  | [] => false

/-- The pieces of a text between its dots. -/
def splitDots : List Char → List (List Char)
  | [] => [[]]
  | c :: rest =>
    if c = '.' then [] :: splitDots rest
    else
      match splitDots rest with
      | [] => [[c]]
      | l :: ls => (c :: l) :: ls

/-- The local part `([A-Z0-9_'+\-\.]*)[A-Z0-9_+-]`. -/
def localPartOk (l : List Char) : Bool :=
  match l.getLast? with
  | none => false
  | some last => l.all isLocalChar && isLocalEndChar last

/-- One domain label `[A-Z0-9][A-Z0-9\-]*` (the dot after it is consumed by `splitDots`). -/
def domainLabelOk : List Char → Bool
  | [] => false
  | c :: rest => c.isAlphanum && rest.all isLabelChar

/-- The top-level label `[A-Z]{2,}`. -/
def topLevelOk (l : List Char) : Bool :=
  decide (2 ≤ l.length) && l.all Char.isAlpha

/-- The domain `([A-Z0-9][A-Z0-9\-]*\.)+[A-Z]{2,}`: at least one label, then the top-level
label. -/
def domainOk (d : List Char) : Bool :=
  let labels := splitDots d
  match labels.getLast? with
  | none => false
  | some tld => decide (2 ≤ labels.length) && labels.dropLast.all domainLabelOk && topLevelOk tld

/-- The test `emailRegex.test(s)` of zod 3.23, whose pattern is
`/^(?!\.)(?!.*\.\.)([A-Z0-9_'+\-\.]*)[A-Z0-9_+-]@([A-Z0-9][A-Z0-9\-]*\.)+[A-Z]{2,}$/i`.
Neither the local part nor the domain can hold an `@`, so the text is cut at its first `@`;
a text that matches the rest of the pattern has no line terminator, so the second
lookahead amounts to the text holding no two consecutive dots. -/
def emailRegexTest (s : String) : Bool :=
  let cs := s.toList
  let l := cs.takeWhile (fun c => c != '@')
  match cs.dropWhile (fun c => c != '@') with
  | [] => false
  | _ :: d => cs.head? != some '.' && !hasDoubleDot cs && localPartOk l && domainOk d

/-! ### Schemas and their parsers -/

/-- The checks a `z.string()` schema of the source carries. -/
inductive StringCheck where
  /-- The check `.min(value, message)`. -/
  | min (value : Nat) (message : String)
  /-- The check `.email(message)`. -/
  | email (message : String)

/-- The checks a `z.number()` schema of the source carries. -/
inductive NumberCheck where
  /-- The check `.int()`, with zod's default message. -/
  | int
  /-- The check `.positive(message)` is `min 0 false message`: the bound is exclusive. -/
  | min (value : ℚ) (inclusive : Bool) (message : String)

/-- The schema constructors the source uses for a field. -/
inductive ZodType where
  | string (checks : List StringCheck)
  | number (checks : List NumberCheck)
  | boolean
  | optional (inner : ZodType)

/-- The issue a string check adds on the text `s`, if it fails.  (The length counts
characters where JavaScript counts UTF-16 units; for the bound 1, the only one the schemas
use, both say that the text is not empty.) -/
def StringCheck.run (path : List String) (s : String) : StringCheck → List ZodIssue
  | StringCheck.min value message =>
    if s.length < value then [{ code := "too_small", path := path, message := message }] else []
  | StringCheck.email message =>
    if !emailRegexTest s then [{ code := "invalid_string", path := path, message := message }] else []

/-- The issue a number check adds on the number `n`, if it fails. -/
def NumberCheck.run (path : List String) (n : JsNumber) : NumberCheck → List ZodIssue
  | NumberCheck.int =>
    if !n.isInteger then
      [{ code := "invalid_type", path := path, message := invalidTypeMessage "integer" "float" }]
    else []
  | NumberCheck.min value inclusive message =>
    let tooSmall := if inclusive then n.ltFinite value else n.leFinite value
    if tooSmall then [{ code := "too_small", path := path, message := message }] else []

/-- The method `_parse` of a field schema on the value `input` found at `path`: a
failed type check aborts, after it every check runs and adds its own issue. -/
def ZodType.parse (path : List String) (input : JsValue) : ZodType → ParseReturn
  | ZodType.string checks =>
    match input with
    | JsValue.string s =>
      let issues := checks.flatMap (StringCheck.run path s)
      { status := statusOfIssues issues, value := input, issues := issues }
    | _ => ParseReturn.invalid [invalidTypeIssue path "string" (getParsedType input)]
  | ZodType.number checks =>
    match input with
    | JsValue.number JsNumber.nan =>
      ParseReturn.invalid [invalidTypeIssue path "number" (getParsedType input)]
    | JsValue.number n =>
      let issues := checks.flatMap (NumberCheck.run path n)
      { status := statusOfIssues issues, value := input, issues := issues }
    | _ => ParseReturn.invalid [invalidTypeIssue path "number" (getParsedType input)]
  | ZodType.boolean =>
    match input with
    | JsValue.bool _ => { status := ParseStatus.valid, value := input, issues := [] }
    | _ => ParseReturn.invalid [invalidTypeIssue path "boolean" (getParsedType input)]
  | ZodType.optional inner =>
    match input with
    | JsValue.undefined => { status := ParseStatus.valid, value := JsValue.undefined, issues := [] }
    | _ => ZodType.parse path input inner

/-- An object schema `z.object(shape)`: its fields in declaration order. -/
structure ZodObject where
  shape : List (String × ZodType)

/-- The test `typeof v !== "undefined"`. -/
def JsValue.isDefined : JsValue → Bool
  | JsValue.undefined => false
  | _ => true

/-- The method `dirty()` of a parse status: a valid status becomes dirty. -/
def ParseStatus.markDirty : ParseStatus → ParseStatus
  | ParseStatus.valid => ParseStatus.dirty
  | status => status

/-- The function `mergeObjectSync` of zod over the parsed fields `(key, value, alwaysSet)`:
an aborted field makes the object `INVALID`, a dirty one makes it dirty, and a field is
copied to the output when its value is defined or its key is present in the input. -/
def mergeObjectSync (status : ParseStatus) (finalObject : List (String × JsValue)) :
    List (String × ParseReturn × Bool) → ParseStatus × JsValue
  | [] => (status, JsValue.object finalObject)
  | (key, value, alwaysSet) :: pairs =>
    match value.status with
    | ParseStatus.aborted => (ParseStatus.aborted, JsValue.undefined)
    | ParseStatus.dirty =>
      mergeObjectSync status.markDirty
        (if key != "__proto__" && (value.value.isDefined || alwaysSet)
          then finalObject ++ [(key, value.value)] else finalObject) pairs
    | ParseStatus.valid =>
      mergeObjectSync status
        (if key != "__proto__" && (value.value.isDefined || alwaysSet)
          then finalObject ++ [(key, value.value)] else finalObject) pairs

/-- The parsed fields of an object schema on the property list `props`: every declared
field is parsed, in declaration order, on `data[key]`; keys that are not declared are
stripped. -/
def ZodObject.pairs (schema : ZodObject) (props : List (String × JsValue)) :
    List (String × ParseReturn × Bool) :=
  schema.shape.map (fun f => (f.1, ZodType.parse [f.1] (getField props f.1) f.2, hasField props f.1))

/-- The method `_parse` of an object schema. -/
def ZodObject.parse (schema : ZodObject) (input : JsValue) : ParseReturn :=
  match input with
  | JsValue.object props =>
    let pairs := schema.pairs props
    let merged := mergeObjectSync ParseStatus.valid [] pairs
    { status := merged.1, value := merged.2, issues := pairs.flatMap (fun p => p.2.1.issues) }
  | _ => ParseReturn.invalid [invalidTypeIssue [] "object" (getParsedType input)]

/-- The result of `safeParse`: `{ success: true, data }` or `{ success: false, error }`,
where `errors` is `error.errors`. -/
inductive SafeParseReturn where
  | success (data : JsValue)
  | failure (errors : List ZodIssue)

/-- The method `safeParse` of an object schema. -/
def ZodObject.safeParse (schema : ZodObject) (input : JsValue) : SafeParseReturn :=
  let result := schema.parse input
  match result.status with
  | ParseStatus.valid => SafeParseReturn.success result.value
  | _ => SafeParseReturn.failure result.issues

/-! ## The schemas of `src/index.js` -/

/-- The schema `userSchema` (lines 12 to 15). -/
def userSchema : ZodObject :=
  { shape := [
      ("name", ZodType.string [StringCheck.min 1 "Name is required"]),
      ("email", ZodType.string [StringCheck.email "Invalid email address"])] }

/-- The schema `postSchema` (lines 17 to 21). -/
def postSchema : ZodObject :=
  { shape := [
      ("title", ZodType.string [StringCheck.min 1 "Title is required"]),
      ("content", ZodType.string [StringCheck.min 1 "Content is required"]),
      ("authorId", ZodType.number [NumberCheck.int, NumberCheck.min 0 false "Invalid author ID"])] }

/-- The schema `updatePostSchema` (lines 23 to 27). -/
def updatePostSchema : ZodObject :=
  { shape := [
      ("title", ZodType.optional (ZodType.string [])),
      ("content", ZodType.optional (ZodType.string [])),
      ("published", ZodType.optional ZodType.boolean)] }

/-! ## The function `parseInt` -/

/-- The characters `parseInt` skips at the start of its argument (white space and line
terminators of ECMAScript). -/
def isStrWhiteSpaceChar (c : Char) : Bool :=
  let n := c.toNat
  n == 0x9 || n == 0xA || n == 0xB || n == 0xC || n == 0xD || n == 0x20 || n == 0xA0 ||
  n == 0x1680 || (0x2000 ≤ n && n ≤ 0x200A) || n == 0x2028 || n == 0x2029 || n == 0x202F ||
  n == 0x205F || n == 0x3000 || n == 0xFEFF

/-- The value of `c` as a digit of the given radix (10 or 16), if it is one. -/
def digitValue (radix : Nat) (c : Char) : Option Nat :=
  if c.isDigit then some (c.toNat - '0'.toNat)
  else if radix = 16 ∧ 'a'.toNat ≤ c.toNat ∧ c.toNat ≤ 'f'.toNat then some (c.toNat - 'a'.toNat + 10)
  else if radix = 16 ∧ 'A'.toNat ≤ c.toNat ∧ c.toNat ≤ 'F'.toNat then some (c.toNat - 'A'.toNat + 10)
  else none

/-- The values of the longest run of digits at the start of the text. -/
def leadingDigits (radix : Nat) : List Char → List Nat
  | [] => []
  | c :: rest =>
    match digitValue radix c with
    | some d => d :: leadingDigits radix rest
    | none => []

/-- The integer a list of digit values denotes in the given radix. -/
def digitsValue (radix : Nat) (digits : List Nat) : Nat :=
  digits.foldl (fun acc d => acc * radix + d) 0

/-- The double nearest to the natural number `n` (ties to even; infinite from `2^1024`
on).  Below `2^53` every natural number is a double, and the value is exact; above it
ECMAScript lets an implementation approximate runs of more than 20 digits, so the
statements on `parseInt` below are made for values under `2^53`. -/
def roundToDouble (n : Nat) : JsNumber :=
  if n < 2 ^ 53 then JsNumber.finite n
  else
    let e := Nat.log2 n - 52
    let m := n / 2 ^ e
    let r := n % 2 ^ e
    let half := 2 ^ (e - 1)
    let m1 := if half < r ∨ (r = half ∧ m % 2 = 1) then m + 1 else m
    if 2 ^ 1024 ≤ m1 * 2 ^ e then JsNumber.posInf else JsNumber.finite ((m1 * 2 ^ e : Nat) : ℚ)

/-- Negation of a JavaScript number. -/
def JsNumber.neg : JsNumber → JsNumber
  | JsNumber.finite q => JsNumber.finite (-q)
  | JsNumber.posInf => JsNumber.negInf
  | JsNumber.negInf => JsNumber.posInf
  | JsNumber.nan => JsNumber.nan

/-- The text left after an optional sign, and whether the sign is `-`. -/
def stripSign : List Char → Bool × List Char
  | '-' :: rest => (true, rest)
  | '+' :: rest => (false, rest)
  | s => (false, s)

/-- The radix `parseInt` reads in when it is given none, and the text left after the
prefix `0x` or `0X` that selects radix 16. -/
def stripRadixPrefix : List Char → Nat × List Char
  | '0' :: 'x' :: rest => (16, rest)
  | '0' :: 'X' :: rest => (16, rest)
  | s => (10, s)

/-- The call `parseInt(input)` with no radix argument: skip leading white space, read a
sign, read the prefix `0x`, then take the longest run of digits; no digit gives NaN. -/
def parseInt (input : String) : JsNumber :=
  let trimmed := input.toList.dropWhile isStrWhiteSpaceChar
  let signed := stripSign trimmed
  let prefixed := stripRadixPrefix signed.2
  let digits := leadingDigits prefixed.1 prefixed.2
  if digits.isEmpty then JsNumber.nan
  else
    let number := roundToDouble (digitsValue prefixed.1 digits)
    if signed.1 then number.neg else number

/-! ## The Prisma client and the route handlers -/

/-- The calls the handlers make on the Prisma client, with their arguments. -/
inductive PrismaCall where
  /-- The call `prisma.user.create` with its `data`. -/
  | userCreate (data : JsValue)
  /-- The call `prisma.user.findMany` including each user's posts. -/
  | userFindMany
  /-- The call `prisma.post.create` with its `data`. -/
  | postCreate (data : JsValue)
  /-- The call `prisma.post.findMany` including each post's author. -/
  | postFindMany
  /-- The call `prisma.post.update` with `where.id` and `data`. -/
  | postUpdate (whereId : JsNumber) (data : JsValue)
  /-- The call `prisma.post.delete` with `where.id`. -/
  | postDelete (whereId : JsNumber)
  /-- The call `prisma.user.delete` with `where.id`. -/
  | userDelete (whereId : JsNumber)

/-- The Prisma client over a store with states `σ`: a call either resolves to a record or
rejects with an error whose `message` is the text, and leaves a store state. -/
abbrev PrismaClient (σ : Type) := PrismaCall → σ → Except String JsValue × σ

/-- The body a handler sends. -/
inductive ResBody where
  /-- A plain text sent with `res.send`. -/
  | text (s : String)
  /-- A value sent with `res.json`. -/
  | json (value : JsValue)
  /-- The object with the single key `error` holding `validation.error.errors`. -/
  | errorIssues (errors : List ZodIssue)
  /-- The object with the single key `error` holding `error.message`. -/
  | errorMessage (message : String)

/-- The response of a handler: status code and body. -/
structure Response where
  status : Nat
  body : ResBody

/-- What running a handler gives: the response, the store state it leaves, and the calls
it made on the Prisma client, in order. -/
structure Outcome (σ : Type) where
  response : Response
  store : σ
  calls : List PrismaCall

/-- The shared tail of the handlers: `await` the call inside `try`, answer `okStatus` with
the record, or in `catch` answer `errStatus` with the error's message. -/
def tryCall {σ : Type} (prisma : PrismaClient σ) (call : PrismaCall) (okStatus errStatus : Nat)
    (s : σ) : Outcome σ :=
  match prisma call s with
  | (Except.ok record, s1) =>
    { response := { status := okStatus, body := ResBody.json record }, store := s1, calls := [call] }
  | (Except.error message, s1) =>
    { response := { status := errStatus, body := ResBody.errorMessage message }, store := s1,
      calls := [call] }

/-- The handler's run made one call on the client, and the client rejected it with the
message `message`. -/
def FailsWith {σ : Type} (prisma : PrismaClient σ) (s : σ) (out : Outcome σ) (message : String) :
    Prop :=
  ∃ call s1, out.calls = [call] ∧ prisma call s = (Except.error message, s1)

/-- The response to a body that fails its schema, sent before any call. -/
def validationFailed {σ : Type} (errors : List ZodIssue) (s : σ) : Outcome σ :=
  { response := { status := 400, body := ResBody.errorIssues errors }, store := s, calls := [] }

/-- The handler of `GET /` (lines 29 to 31). -/
def getRoot {σ : Type} (s : σ) : Outcome σ :=
  { response := { status := 200, body := ResBody.text "Hello World" }, store := s, calls := [] }

/-- The handler of `POST /users` (lines 34 to 50). -/
def postUsers {σ : Type} (prisma : PrismaClient σ) (body : JsValue) (s : σ) : Outcome σ :=
  match userSchema.safeParse body with
  | SafeParseReturn.failure errors => validationFailed errors s
  | SafeParseReturn.success data =>
    tryCall prisma
      (PrismaCall.userCreate (JsValue.object [("name", data.get "name"), ("email", data.get "email")]))
      201 400 s

/-- The handler of `GET /users` (lines 53 to 60). -/
def getUsers {σ : Type} (prisma : PrismaClient σ) (s : σ) : Outcome σ :=
  tryCall prisma PrismaCall.userFindMany 200 500 s

/-- The handler of `POST /posts` (lines 63 to 79). -/
def postPosts {σ : Type} (prisma : PrismaClient σ) (body : JsValue) (s : σ) : Outcome σ :=
  match postSchema.safeParse body with
  | SafeParseReturn.failure errors => validationFailed errors s
  | SafeParseReturn.success data =>
    tryCall prisma
      (PrismaCall.postCreate (JsValue.object
        [("title", data.get "title"), ("content", data.get "content"),
         ("authorId", data.get "authorId")]))
      201 400 s

/-- The handler of `GET /posts` (lines 82 to 89). -/
def getPosts {σ : Type} (prisma : PrismaClient σ) (s : σ) : Outcome σ :=
  tryCall prisma PrismaCall.postFindMany 200 500 s

/-- The handler of `PUT /posts/:id` (lines 92 to 110); `id` is the path text. -/
def putPosts {σ : Type} (prisma : PrismaClient σ) (id : String) (body : JsValue) (s : σ) :
    Outcome σ :=
  match updatePostSchema.safeParse body with
  | SafeParseReturn.failure errors => validationFailed errors s
  | SafeParseReturn.success data =>
    tryCall prisma
      (PrismaCall.postUpdate (parseInt id) (JsValue.object
        [("title", data.get "title"), ("content", data.get "content"),
         ("published", data.get "published")]))
      200 400 s

/-- The handler of `DELETE /posts/:id` (lines 113 to 123). -/
def deletePosts {σ : Type} (prisma : PrismaClient σ) (id : String) (s : σ) : Outcome σ :=
  tryCall prisma (PrismaCall.postDelete (parseInt id)) 200 400 s

/-- The handler of `DELETE /users/:id` (lines 126 to 136). -/
def deleteUsers {σ : Type} (prisma : PrismaClient σ) (id : String) (s : σ) : Outcome σ :=
  tryCall prisma (PrismaCall.userDelete (parseInt id)) 200 400 s

/-! ## A reference store

The Prisma schema and the database behind `prisma` are not part of `src/index.js`.  The
handlers above take the client as a parameter; the store below is the repository contract
of the specification (sections 3 and 4.2), used where a claim speaks about what is stored. -/

/-- Modelled from the spec: a User row of the store, which is not under `src/`
(section 3: identifier, name, email). -/
structure User where
  id : Nat
  name : String
  email : String
  deriving DecidableEq

/-- Modelled from the spec: a Post row of the store, which is not under `src/`
(section 3: identifier, title, content, published, authorId). -/
structure Post where
  id : Nat
  title : String
  content : String
  published : Bool
  authorId : Nat
  deriving DecidableEq

/-- Modelled from the spec: the state of the relational store, which is not under `src/`:
its rows and the next identifiers to assign (identifiers are never reused). -/
structure Store where
  users : List User
  posts : List Post
  nextUserId : Nat
  nextPostId : Nat
  deriving DecidableEq

/-- Modelled from the spec: the store before any request (the store is not under `src/`). -/
def Store.empty : Store :=
  { users := [], posts := [], nextUserId := 1, nextPostId := 1 }

/-- Modelled from the spec: the record returned for a User row (the store is not under
`src/`). -/
def User.record (u : User) : JsValue :=
  JsValue.object
    [("id", JsValue.number (JsNumber.finite u.id)), ("name", JsValue.string u.name),
     ("email", JsValue.string u.email)]

/-- Modelled from the spec: the record returned for a Post row (the store is not under
`src/`). -/
def Post.record (p : Post) : JsValue :=
  JsValue.object
    [("id", JsValue.number (JsNumber.finite p.id)), ("title", JsValue.string p.title),
     ("content", JsValue.string p.content), ("published", JsValue.bool p.published),
     ("authorId", JsValue.number (JsNumber.finite p.authorId))]

/-- Modelled from the spec: the identifier sent in `where.id` names the row `id` (the
store is not under `src/`). -/
def idMatches (whereId : JsNumber) (id : Nat) : Bool :=
  decide (whereId = JsNumber.finite id)

/-- Modelled from the spec: the User row an identifier names (the store is not under
`src/`). -/
def Store.findUser (s : Store) (whereId : JsNumber) : Option User :=
  s.users.find? (fun u => idMatches whereId u.id)

/-- Modelled from the spec: the Post row an identifier names (the store is not under
`src/`). -/
def Store.findPost (s : Store) (whereId : JsNumber) : Option Post :=
  s.posts.find? (fun p => idMatches whereId p.id)

/-- Modelled from the spec: one field of a partial update of the store, which is not
under `src/` (section 4.2, `updatePost`: only the fields present are applied): an unset
field keeps the stored text, a text replaces it, any other value is rejected. -/
def updateText (stored : String) : JsValue → Option String
  | JsValue.undefined => some stored
  | JsValue.string t => some t
  | _ => none

/-- Modelled from the spec: the same for a boolean field of the store, which is not under
`src/`. -/
def updateBool (stored : Bool) : JsValue → Option Bool
  | JsValue.undefined => some stored
  | JsValue.bool b => some b
  | _ => none

/-- Modelled from the spec: the row a partial update gives (the store is not under `src/`;
section 4.2, `updatePost`). -/
def Post.update (p : Post) (data : JsValue) : Option Post :=
  match updateText p.title (data.get "title"), updateText p.content (data.get "content"),
    updateBool p.published (data.get "published") with
  | some title, some content, some published =>
    some { p with title := title, content := content, published := published }
  | _, _, _ => none

/-- Modelled from the spec: the repository of section 4.2 as a Prisma client over `Store`
(the Prisma schema and the database are not under `src/`).  Creation assigns the next
identifier; a post needs an existing author; update and delete fail on an absent row; a
user who still owns posts is not deleted (the specification leaves this case open). -/
def memStore : PrismaClient Store
  | PrismaCall.userCreate data, s =>
    match data.get "name", data.get "email" with
    | JsValue.string name, JsValue.string email =>
      let u : User := { id := s.nextUserId, name := name, email := email }
      (Except.ok u.record, { s with users := s.users ++ [u], nextUserId := s.nextUserId + 1 })
    | _, _ => (Except.error "Invalid user data", s)
  | PrismaCall.userFindMany, s =>
    (Except.ok (JsValue.array (s.users.map (fun u =>
      JsValue.object
        [("id", JsValue.number (JsNumber.finite u.id)), ("name", JsValue.string u.name),
         ("email", JsValue.string u.email),
         ("posts", JsValue.array ((s.posts.filter (fun p => p.authorId = u.id)).map Post.record))]))),
     s)
  | PrismaCall.postCreate data, s =>
    match data.get "title", data.get "content", data.get "authorId" with
    | JsValue.string title, JsValue.string content, JsValue.number authorId =>
      match s.findUser authorId with
      | some u =>
        let p : Post :=
          { id := s.nextPostId, title := title, content := content, published := false,
            authorId := u.id }
        (Except.ok p.record, { s with posts := s.posts ++ [p], nextPostId := s.nextPostId + 1 })
      | none => (Except.error "Foreign key constraint failed: authorId", s)
    | _, _, _ => (Except.error "Invalid post data", s)
  | PrismaCall.postFindMany, s =>
    (Except.ok (JsValue.array (s.posts.map (fun p =>
      JsValue.object
        [("id", JsValue.number (JsNumber.finite p.id)), ("title", JsValue.string p.title),
         ("content", JsValue.string p.content), ("published", JsValue.bool p.published),
         ("authorId", JsValue.number (JsNumber.finite p.authorId)),
         ("author", match s.users.find? (fun u => u.id = p.authorId) with
            | some u => u.record
            | none => JsValue.null)]))),
     s)
  | PrismaCall.postUpdate whereId data, s =>
    match s.findPost whereId with
    | none => (Except.error "Record to update not found", s)
    | some p =>
      match p.update data with
      | some p1 =>
        (Except.ok p1.record,
         { s with posts := s.posts.map (fun x =>
            if idMatches whereId x.id then (x.update data).getD x else x) })
      | none => (Except.error "Invalid value in update", s)
  | PrismaCall.postDelete whereId, s =>
    match s.findPost whereId with
    | none => (Except.error "Record to delete does not exist", s)
    | some p => (Except.ok p.record, { s with posts := s.posts.filter (fun x => x.id ≠ p.id) })
  | PrismaCall.userDelete whereId, s =>
    match s.findUser whereId with
    | none => (Except.error "Record to delete does not exist", s)
    | some u =>
      if s.posts.any (fun p => p.authorId = u.id) then
        (Except.error "Foreign key constraint failed: authorId", s)
      else (Except.ok u.record, { s with users := s.users.filter (fun x => x.id ≠ u.id) })

/-- Modelled from the spec: a store holding the user Ada and one post of hers (the store
is not under `src/`). -/
def Store.sample : Store :=
  { users := [{ id := 1, name := "Ada", email := "ada@example.com" }],
    posts := [{ id := 1, title := "Hello", content := "First post", published := false, authorId := 1 }],
    nextUserId := 2, nextPostId := 2 }

/-- Modelled from the spec: a store that cannot be reached, so that every call is rejected
(StoreUnavailable, sections 4.2 and 7; the store is not under `src/`). -/
def unavailableStore : PrismaClient Unit :=
  fun _ s => (Except.error "Cannot reach database server", s)

/-- A body for `POST /users`: Ada, her e-mail, and a key `id` the schema does not declare. -/
def adaBody : JsValue :=
  JsValue.object
    [("id", JsValue.number (JsNumber.finite 99)), ("name", JsValue.string "Ada"),
     ("email", JsValue.string "ada@example.com")]

/-- A body for `POST /posts` with a valid title and content and the given `authorId`. -/
def postBody (authorId : JsValue) : JsValue :=
  JsValue.object
    [("title", JsValue.string "T"), ("content", JsValue.string "C"), ("authorId", authorId)]

/-! ## The rules of the specification, field by field -/

/-- The value is a text of length at least 1 (specification, section 4.1). -/
def nonEmptyTextRule : JsValue → Bool
  | JsValue.string s => decide (1 ≤ s.length)
  | _ => false

/-- The e-mail syntax, said without running the validator: a local part, an `@`, one or
more labels each closed by a dot, and a top-level label.  The text does not start with a
dot and holds no two consecutive dots; the local part is made of letters, digits and
`_ ' + - .` and ends in a letter, a digit or one of `_ + -`; a label starts with a letter
or digit and goes on with letters, digits and hyphens; the top-level label is at least two
letters. -/
def EmailSyntax (cs : List Char) : Prop :=
  ∃ (localPart tld : List Char) (labels : List (List Char)),
    cs = localPart ++ '@' :: (labels.flatMap (fun l => l ++ ['.']) ++ tld) ∧
    cs.head? ≠ some '.' ∧ (¬ ∃ a b, cs = a ++ '.' :: '.' :: b) ∧
    (∀ c ∈ localPart, c.isAlphanum = true ∨ c ∈ ['_', '\'', '+', '-', '.']) ∧
    (∃ c, localPart.getLast? = some c ∧ (c.isAlphanum = true ∨ c ∈ ['_', '+', '-'])) ∧
    labels ≠ [] ∧
    (∀ l ∈ labels, ∃ c r, l = c :: r ∧ c.isAlphanum = true ∧
      ∀ x ∈ r, x.isAlphanum = true ∨ x = '-') ∧
    2 ≤ tld.length ∧ ∀ c ∈ tld, c.isAlpha = true

/-- The text lacks the shape `local@domain.tld` in one of three ways: it has no `@`, its
local part is empty, or its domain (what follows an `@`) has no top-level label set off by
a dot: the domain has no dot, or nothing follows its last dot. -/
def LacksEmailShape (cs : List Char) : Prop :=
  '@' ∉ cs ∨ (∃ d, cs = '@' :: d) ∨
    ∃ l d, cs = l ++ '@' :: d ∧ ('.' ∉ d ∨ d.getLast? = some '.')

/-- The value is a text of the shape `local@domain.tld`, the rule for `email` as the
specification words it (sections 4.1 and 8). -/
def emailShapeRule (v : JsValue) : Prop :=
  ∃ s, v = JsValue.string s ∧ ¬ LacksEmailShape s.toList

/-- The value is a text that has the e-mail syntax `EmailSyntax`. -/
def emailRule (v : JsValue) : Prop :=
  ∃ s, v = JsValue.string s ∧ EmailSyntax s.toList

/-- The value is an integer and strictly positive (specification, section 4.1). -/
def positiveIntegerRule : JsValue → Bool
  | JsValue.number (JsNumber.finite q) => decide (q.den = 1) && decide (0 < q)
  | _ => false

/-- The value is absent or a text (specification, section 4.1). -/
def optionalTextRule : JsValue → Bool
  | JsValue.undefined => true
  | JsValue.string _ => true
  | _ => false

/-- The value is absent or a boolean (specification, section 4.1). -/
def optionalBooleanRule : JsValue → Bool
  | JsValue.undefined => true
  | JsValue.bool _ => true
  | _ => false

/-- The rules of UserCreate in declaration order, with the rule for `email` as the
specification words it: the shape `local@domain.tld` (sections 4.1 and 8). -/
def userCreateShapeRules : List (String × (JsValue → Prop)) :=
  [("name", fun v => nonEmptyTextRule v = true), ("email", emailShapeRule)]

/-- The rules of UserCreate in declaration order (specification, section 4.1), with the
e-mail syntax spelled out as `EmailSyntax`. -/
def userCreateRules : List (String × (JsValue → Prop)) :=
  [("name", fun v => nonEmptyTextRule v = true), ("email", emailRule)]

/-- The rules of PostCreate in declaration order (specification, section 4.1). -/
def postCreateRules : List (String × (JsValue → Prop)) :=
  [("title", fun v => nonEmptyTextRule v = true), ("content", fun v => nonEmptyTextRule v = true),
   ("authorId", fun v => positiveIntegerRule v = true)]

/-- The rules of PostUpdate in declaration order (specification, section 4.1). -/
def postUpdateRules : List (String × (JsValue → Prop)) :=
  [("title", fun v => optionalTextRule v = true), ("content", fun v => optionalTextRule v = true),
   ("published", fun v => optionalBooleanRule v = true)]

/-- The error list `safeParse` hands to the handler: empty on success. -/
def SafeParseReturn.errors : SafeParseReturn → List ZodIssue
  | SafeParseReturn.success _ => []
  | SafeParseReturn.failure errors => errors

/-- The entries of an error list that name the field `key`. -/
def fieldErrors (errors : List ZodIssue) (key : String) : List ZodIssue :=
  errors.filter (fun e => decide (e.path = [key]))

/-- The number a run of decimal digit characters denotes. -/
def decimalValue (digits : List Char) : Nat :=
  digitsValue 10 (digits.map (fun c => c.toNat - '0'.toNat))

/-- The text starts with optional white space, an optional sign and at least one decimal
digit. -/
def HasIntegerPrefix (cs : List Char) : Prop :=
  ∃ ws sign digits rest, cs = ws ++ sign ++ digits ++ rest ∧
    (∀ c ∈ ws, isStrWhiteSpaceChar c = true) ∧ (sign = [] ∨ sign = ['+'] ∨ sign = ['-']) ∧
    digits ≠ [] ∧ ∀ c ∈ digits, c.isDigit = true

/-- The integer `value` with the sign read before it, as a JavaScript number. -/
def signedInteger (sign : List Char) (value : Nat) : JsNumber :=
  if sign = ['-'] then JsNumber.finite (-(value : ℚ)) else JsNumber.finite (value : ℚ)

/-- The error list is the concatenation of one group of entries per rule, in the order of
the rules, which is the order the schema declares its fields in; each group names its
rule's field, and is empty exactly when the rule holds of the field's value. -/
def ReportsEveryViolation (schema : ZodObject) (rules : List (String × (JsValue → Prop))) : Prop :=
  schema.shape.map Prod.fst = rules.map Prod.fst ∧
  ∀ props : List (String × JsValue),
    ∃ groups : List (List ZodIssue),
      (schema.safeParse (JsValue.object props)).errors = groups.flatten ∧
      List.Forall₂
        (fun group rule =>
          (∀ e ∈ group, e.path = [rule.1]) ∧ (group = [] ↔ rule.2 (getField props rule.1)))
        groups rules

/-! ## The zod interpreter: status, issues and output -/

theorem getField_of_hasField_false (props : List (String × JsValue)) (key : String)
    (h : hasField props key = false) : getField props key = JsValue.undefined := by
  unfold getField
  have gen : ∀ (l : List (String × JsValue)) (acc : JsValue), (l.any (fun p => p.1 == key)) = false →
      l.foldl (fun acc p => if p.1 = key then p.2 else acc) acc = acc := by
    intro l
    induction l with
    | nil => intro acc _; rfl
    | cons p l ih =>
      intro acc hl
      simp only [List.any_cons, Bool.or_eq_false_iff, beq_eq_false_iff_ne, ne_eq] at hl
      simp only [List.foldl_cons, hl.1, if_false]
      exact ih acc hl.2
  exact gen props _ h

theorem statusOfIssues_valid_iff (issues : List ZodIssue) :
    statusOfIssues issues = ParseStatus.valid ↔ issues = [] := by
  cases issues <;> simp [statusOfIssues]

theorem ZodType.parse_status_valid_iff (t : ZodType) (path : List String) (v : JsValue) :
    (ZodType.parse path v t).status = ParseStatus.valid ↔ (ZodType.parse path v t).issues = [] := by
  induction t with
  | string checks =>
    cases v <;> simp [ZodType.parse, ParseReturn.invalid, statusOfIssues_valid_iff]
  | number checks =>
    cases v with
    | number n => cases n <;> simp [ZodType.parse, ParseReturn.invalid, statusOfIssues_valid_iff]
    | _ => simp [ZodType.parse, ParseReturn.invalid]
  | boolean => cases v <;> simp [ZodType.parse, ParseReturn.invalid]
  | optional inner ih =>
    cases v <;> simp [ZodType.parse] <;> exact ih

theorem ZodType.parse_status_ne_aborted_value (t : ZodType) (path : List String) (v : JsValue)
    (h : (ZodType.parse path v t).status ≠ ParseStatus.aborted) :
    (ZodType.parse path v t).value = v := by
  induction t with
  | string checks =>
    cases v <;> simp_all [ZodType.parse, ParseReturn.invalid]
  | number checks =>
    cases v with
    | number n => cases n <;> simp_all [ZodType.parse, ParseReturn.invalid]
    | _ => simp_all [ZodType.parse, ParseReturn.invalid]
  | boolean => cases v <;> simp_all [ZodType.parse, ParseReturn.invalid]
  | optional inner ih =>
    cases v <;> simp_all [ZodType.parse]

theorem mergeObjectSync_valid_iff (pairs : List (String × ParseReturn × Bool)) (status : ParseStatus)
    (acc : List (String × JsValue)) :
    (mergeObjectSync status acc pairs).1 = ParseStatus.valid ↔
      status = ParseStatus.valid ∧ ∀ p ∈ pairs, p.2.1.status = ParseStatus.valid := by
  induction pairs generalizing status acc with
  | nil => simp [mergeObjectSync]
  | cons p pairs ih =>
    obtain ⟨key, value, alwaysSet⟩ := p
    cases hs : value.status <;> cases status <;>
      simp [mergeObjectSync, hs, ih, ParseStatus.markDirty]

theorem ZodObject.parse_valid_iff (schema : ZodObject) (body : JsValue) :
    (schema.parse body).status = ParseStatus.valid ↔ (schema.parse body).issues = [] := by
  cases body with
  | object props =>
    simp only [ZodObject.parse, mergeObjectSync_valid_iff, true_and, List.flatMap_eq_nil_iff]
    simp only [ZodObject.pairs, List.mem_map, forall_exists_index, and_imp]
    constructor
    · intro h p f hf hp
      subst hp
      exact (ZodType.parse_status_valid_iff _ _ _).mp (h _ f hf rfl)
    · intro h p f hf hp
      subst hp
      exact (ZodType.parse_status_valid_iff _ _ _).mpr (h _ f hf rfl)
  | _ => simp [ZodObject.parse, ParseReturn.invalid]

theorem safeParse_failure (schema : ZodObject) (body : JsValue) (errors : List ZodIssue)
    (h : schema.safeParse body = SafeParseReturn.failure errors) :
    errors = (schema.parse body).issues ∧ errors ≠ [] := by
  unfold ZodObject.safeParse at h
  cases hs : (schema.parse body).status <;> simp only [hs] at h
  · cases h
  all_goals
    injection h with h
    subst h
    refine ⟨rfl, fun hnil => ?_⟩
    have := (ZodObject.parse_valid_iff schema body).mpr hnil
    rw [hs] at this
    cases this

theorem safeParse_errors (schema : ZodObject) (body : JsValue) :
    (schema.safeParse body).errors = (schema.parse body).issues := by
  cases h : schema.safeParse body with
  | failure errors => exact (safeParse_failure schema body errors h).1
  | success data =>
    unfold ZodObject.safeParse at h
    cases hs : (schema.parse body).status <;> simp only [hs] at h
    · exact ((ZodObject.parse_valid_iff schema body).mp hs).symm
    all_goals cases h

theorem stringCheck_run_path (c : StringCheck) (path : List String) (s : String) :
    ∀ e ∈ c.run path s, e.path = path := by
  cases c <;> simp only [StringCheck.run] <;> split <;> simp

theorem numberCheck_run_path (c : NumberCheck) (path : List String) (n : JsNumber) :
    ∀ e ∈ c.run path n, e.path = path := by
  cases c <;> simp only [NumberCheck.run] <;> split <;> simp

theorem ZodType.parse_issues_path (t : ZodType) (path : List String) (v : JsValue) :
    ∀ e ∈ (ZodType.parse path v t).issues, e.path = path := by
  induction t with
  | string checks =>
    cases v <;> simp [ZodType.parse, ParseReturn.invalid, invalidTypeIssue]
    intro e c _ he
    exact stringCheck_run_path c path _ e he
  | number checks =>
    cases v with
    | number n =>
      cases n <;> simp [ZodType.parse, ParseReturn.invalid, invalidTypeIssue]
      all_goals
        intro e c _ he
        exact numberCheck_run_path c path _ e he
    | _ => simp [ZodType.parse, ParseReturn.invalid, invalidTypeIssue]
  | boolean => cases v <;> simp [ZodType.parse, ParseReturn.invalid, invalidTypeIssue]
  | optional inner ih =>
    cases v <;> simp [ZodType.parse] <;> exact ih

theorem nonEmptyText_issues (path : List String) (message : String) (v : JsValue) :
    (ZodType.parse path v (ZodType.string [StringCheck.min 1 message])).issues = [] ↔
      nonEmptyTextRule v = true := by
  cases v <;> simp [ZodType.parse, ParseReturn.invalid, StringCheck.run, nonEmptyTextRule]
  omega

theorem email_issues_test (path : List String) (message : String) (v : JsValue) :
    (ZodType.parse path v (ZodType.string [StringCheck.email message])).issues = [] ↔
      ∃ s, v = JsValue.string s ∧ emailRegexTest s = true := by
  cases v <;> simp [ZodType.parse, ParseReturn.invalid, StringCheck.run]

theorem positiveInteger_issues (path : List String) (message : String) (v : JsValue) :
    (ZodType.parse path v
      (ZodType.number [NumberCheck.int, NumberCheck.min 0 false message])).issues = [] ↔
      positiveIntegerRule v = true := by
  cases v with
  | number n =>
    cases n <;>
      simp [ZodType.parse, ParseReturn.invalid, NumberCheck.run, positiveIntegerRule,
        JsNumber.isInteger, JsNumber.leFinite]
  | _ => simp [ZodType.parse, ParseReturn.invalid, positiveIntegerRule]

theorem optionalText_issues (path : List String) (v : JsValue) :
    (ZodType.parse path v (ZodType.optional (ZodType.string []))).issues = [] ↔
      optionalTextRule v = true := by
  cases v <;> simp [ZodType.parse, ParseReturn.invalid, optionalTextRule]

theorem optionalBoolean_issues (path : List String) (v : JsValue) :
    (ZodType.parse path v (ZodType.optional ZodType.boolean)).issues = [] ↔
      optionalBooleanRule v = true := by
  cases v <;> simp [ZodType.parse, ParseReturn.invalid, optionalBooleanRule]

theorem userSchema_issues (props : List (String × JsValue)) :
    (userSchema.parse (JsValue.object props)).issues =
      (ZodType.parse ["name"] (getField props "name")
        (ZodType.string [StringCheck.min 1 "Name is required"])).issues ++
      (ZodType.parse ["email"] (getField props "email")
        (ZodType.string [StringCheck.email "Invalid email address"])).issues := by
  simp [userSchema, ZodObject.parse, ZodObject.pairs]

theorem postSchema_issues (props : List (String × JsValue)) :
    (postSchema.parse (JsValue.object props)).issues =
      (ZodType.parse ["title"] (getField props "title")
        (ZodType.string [StringCheck.min 1 "Title is required"])).issues ++
      ((ZodType.parse ["content"] (getField props "content")
        (ZodType.string [StringCheck.min 1 "Content is required"])).issues ++
      (ZodType.parse ["authorId"] (getField props "authorId")
        (ZodType.number [NumberCheck.int, NumberCheck.min 0 false "Invalid author ID"])).issues) := by
  simp [postSchema, ZodObject.parse, ZodObject.pairs]

theorem updatePostSchema_issues (props : List (String × JsValue)) :
    (updatePostSchema.parse (JsValue.object props)).issues =
      (ZodType.parse ["title"] (getField props "title")
        (ZodType.optional (ZodType.string []))).issues ++
      ((ZodType.parse ["content"] (getField props "content")
        (ZodType.optional (ZodType.string []))).issues ++
      (ZodType.parse ["published"] (getField props "published")
        (ZodType.optional ZodType.boolean)).issues) := by
  simp [updatePostSchema, ZodObject.parse, ZodObject.pairs]

theorem safeParse_success (schema : ZodObject) (body data : JsValue)
    (h : schema.safeParse body = SafeParseReturn.success data) :
    (schema.parse body).status = ParseStatus.valid ∧ data = (schema.parse body).value := by
  unfold ZodObject.safeParse at h
  cases hs : (schema.parse body).status <;> simp only [hs] at h
  · injection h with h
    exact ⟨rfl, h.symm⟩
  all_goals cases h

theorem safeParse_success_object (schema : ZodObject) (body data : JsValue)
    (h : schema.safeParse body = SafeParseReturn.success data) :
    ∃ props, body = JsValue.object props := by
  have hs := (safeParse_success schema body data h).1
  cases body with
  | object props => exact ⟨props, rfl⟩
  | _ => simp [ZodObject.parse, ParseReturn.invalid] at hs

theorem nonEmptyTextRule_elim (v : JsValue) (h : nonEmptyTextRule v = true) :
    ∃ s, v = JsValue.string s ∧ 1 ≤ s.length := by
  cases v <;> simp [nonEmptyTextRule] at h
  exact ⟨_, rfl, by omega⟩

theorem positiveIntegerRule_elim (v : JsValue) (h : positiveIntegerRule v = true) :
    ∃ q : ℚ, v = JsValue.number (JsNumber.finite q) ∧ q.den = 1 ∧ 0 < q := by
  cases v with
  | number n =>
    cases n <;> simp [positiveIntegerRule] at h
    exact ⟨_, rfl, h.1, h.2⟩
  | _ => simp [positiveIntegerRule] at h

theorem userSchema_success (props : List (String × JsValue)) (data : JsValue)
    (h : userSchema.safeParse (JsValue.object props) = SafeParseReturn.success data) :
    ∃ name email, getField props "name" = JsValue.string name ∧ 1 ≤ name.length ∧
      getField props "email" = JsValue.string email ∧ emailRegexTest email = true ∧
      data = JsValue.object [("name", JsValue.string name), ("email", JsValue.string email)] := by
  obtain ⟨hs, hd⟩ := safeParse_success _ _ _ h
  have hi := (ZodObject.parse_valid_iff _ _).mp hs
  rw [userSchema_issues, List.append_eq_nil] at hi
  obtain ⟨name, hn, hlen⟩ := nonEmptyTextRule_elim _ ((nonEmptyText_issues _ _ _).mp hi.1)
  obtain ⟨email, he, hmail⟩ := (email_issues_test _ _ _).mp hi.2
  refine ⟨name, email, hn, hlen, he, hmail, ?_⟩
  have h0 : name.length ≠ 0 := by omega
  rw [hd]
  simp [userSchema, ZodObject.parse, ZodObject.pairs, hn, he, ZodType.parse, StringCheck.run,
    statusOfIssues, mergeObjectSync, hmail, JsValue.isDefined, h0]

theorem postSchema_success (props : List (String × JsValue)) (data : JsValue)
    (h : postSchema.safeParse (JsValue.object props) = SafeParseReturn.success data) :
    ∃ (title content : String) (authorId : ℚ),
      getField props "title" = JsValue.string title ∧ 1 ≤ title.length ∧
      getField props "content" = JsValue.string content ∧ 1 ≤ content.length ∧
      getField props "authorId" = JsValue.number (JsNumber.finite authorId) ∧
      authorId.den = 1 ∧ 0 < authorId ∧
      data = JsValue.object
        [("title", JsValue.string title), ("content", JsValue.string content),
         ("authorId", JsValue.number (JsNumber.finite authorId))] := by
  obtain ⟨hs, hd⟩ := safeParse_success _ _ _ h
  have hi := (ZodObject.parse_valid_iff _ _).mp hs
  rw [postSchema_issues, List.append_eq_nil, List.append_eq_nil] at hi
  obtain ⟨title, ht, htl⟩ := nonEmptyTextRule_elim _ ((nonEmptyText_issues _ _ _).mp hi.1)
  obtain ⟨content, hc, hcl⟩ := nonEmptyTextRule_elim _ ((nonEmptyText_issues _ _ _).mp hi.2.1)
  obtain ⟨q, hq, hden, hpos⟩ := positiveIntegerRule_elim _ ((positiveInteger_issues _ _ _).mp hi.2.2)
  refine ⟨title, content, q, ht, htl, hc, hcl, hq, hden, hpos, ?_⟩
  have h0 : title.length ≠ 0 := by omega
  have h1 : content.length ≠ 0 := by omega
  have h2 : ¬ q ≤ 0 := not_le.mpr hpos
  rw [hd]
  simp [postSchema, ZodObject.parse, ZodObject.pairs, ht, hc, hq, ZodType.parse, StringCheck.run,
    NumberCheck.run, statusOfIssues, mergeObjectSync, JsValue.isDefined, h0, h1, h2, hden,
    JsNumber.isInteger, JsNumber.leFinite]

theorem optionalTextRule_value (path : List String) (v : JsValue) (h : optionalTextRule v = true) :
    ZodType.parse path v (ZodType.optional (ZodType.string [])) =
      { status := ParseStatus.valid, value := v, issues := [] } := by
  cases v <;> simp [optionalTextRule] at h <;> simp [ZodType.parse, statusOfIssues]

theorem optionalBooleanRule_value (path : List String) (v : JsValue)
    (h : optionalBooleanRule v = true) :
    ZodType.parse path v (ZodType.optional ZodType.boolean) =
      { status := ParseStatus.valid, value := v, issues := [] } := by
  cases v <;> simp [optionalBooleanRule] at h <;> simp [ZodType.parse]

theorem isDefined_false (v : JsValue) (h : v.isDefined = false) : v = JsValue.undefined := by
  cases v <;> simp [JsValue.isDefined] at h
  rfl

theorem updatePostSchema_success (props : List (String × JsValue)) (data : JsValue)
    (h : updatePostSchema.safeParse (JsValue.object props) = SafeParseReturn.success data) :
    optionalTextRule (getField props "title") = true ∧
    optionalTextRule (getField props "content") = true ∧
    optionalBooleanRule (getField props "published") = true ∧
    data.get "title" = getField props "title" ∧
    data.get "content" = getField props "content" ∧
    data.get "published" = getField props "published" := by
  obtain ⟨hs, hd⟩ := safeParse_success _ _ _ h
  have hi := (ZodObject.parse_valid_iff _ _).mp hs
  rw [updatePostSchema_issues, List.append_eq_nil, List.append_eq_nil] at hi
  have ht := (optionalText_issues _ _).mp hi.1
  have hc := (optionalText_issues _ _).mp hi.2.1
  have hp := (optionalBoolean_issues _ _).mp hi.2.2
  refine ⟨ht, hc, hp, ?_⟩
  rw [hd]
  simp only [updatePostSchema, ZodObject.parse, ZodObject.pairs, List.map,
    optionalTextRule_value _ _ ht, optionalTextRule_value _ _ hc,
    optionalBooleanRule_value _ _ hp, mergeObjectSync]
  generalize getField props "title" = v1
  generalize getField props "content" = v2
  generalize getField props "published" = v3
  generalize hasField props "title" = b1
  generalize hasField props "content" = b2
  generalize hasField props "published" = b3
  have key : ∀ v : JsValue, v.isDefined = false → JsValue.undefined = v := by
    intro v hv
    cases v <;> simp [JsValue.isDefined] at hv
    rfl
  cases h1 : v1.isDefined <;> cases h2 : v2.isDefined <;> cases h3 : v3.isDefined <;>
    cases b1 <;> cases b2 <;> cases b3 <;>
    simp [JsValue.get, getField] <;>
    first
      | exact key _ ‹_›
      | exact ⟨key _ ‹_›, key _ ‹_›⟩
      | exact ⟨key _ ‹_›, key _ ‹_›, key _ ‹_›⟩

/-! ## The handlers -/

theorem tryCall_calls {σ : Type} (prisma : PrismaClient σ) (call : PrismaCall) (ok err : Nat) (s : σ) :
    (tryCall prisma call ok err s).calls = [call] := by
  unfold tryCall
  split <;> rfl

theorem tryCall_ok {σ : Type} (prisma : PrismaClient σ) (call : PrismaCall) (ok err : Nat) (s s1 : σ)
    (record : JsValue) (h : prisma call s = (Except.ok record, s1)) :
    tryCall prisma call ok err s =
      { response := { status := ok, body := ResBody.json record }, store := s1, calls := [call] } := by
  unfold tryCall
  rw [h]

theorem tryCall_error {σ : Type} (prisma : PrismaClient σ) (call : PrismaCall) (ok err : Nat)
    (s s1 : σ) (message : String) (h : prisma call s = (Except.error message, s1)) :
    tryCall prisma call ok err s =
      { response := { status := err, body := ResBody.errorMessage message }, store := s1,
        calls := [call] } := by
  unfold tryCall
  rw [h]

/-- Claim C1.  On each write route with a body schema (`POST /users`, `POST /posts`,
`PUT /posts/:id`), a body that fails the route's schema is answered with status 400 and
the validator's error list under `error`; that list is not empty, the store state is the
one before the request, and no call is made on the Prisma client. -/
theorem validation_failure_short_circuits {σ : Type} (prisma : PrismaClient σ) (s : σ)
    (id : String) (body : JsValue) (errors : List ZodIssue) :
    (userSchema.safeParse body = SafeParseReturn.failure errors →
      errors ≠ [] ∧
      postUsers prisma body s =
        { response := { status := 400, body := ResBody.errorIssues errors }, store := s, calls := [] }) ∧
    (postSchema.safeParse body = SafeParseReturn.failure errors →
      errors ≠ [] ∧
      postPosts prisma body s =
        { response := { status := 400, body := ResBody.errorIssues errors }, store := s, calls := [] }) ∧
    (updatePostSchema.safeParse body = SafeParseReturn.failure errors →
      errors ≠ [] ∧
      putPosts prisma id body s =
        { response := { status := 400, body := ResBody.errorIssues errors }, store := s, calls := [] }) := by
  refine ⟨fun h => ⟨(safeParse_failure _ _ _ h).2, ?_⟩, fun h => ⟨(safeParse_failure _ _ _ h).2, ?_⟩,
    fun h => ⟨(safeParse_failure _ _ _ h).2, ?_⟩⟩
  · simp only [postUsers, h, validationFailed]
  · simp only [postPosts, h, validationFailed]
  · simp only [putPosts, h, validationFailed]

/-- Three failing bodies on the reference store: an empty name without e-mail on
`POST /users`, the author `-1` on `POST /posts`, and `published: null` on `PUT /posts/1`.
Each is answered 400 with the validator's entries, and the store is left alone. -/
theorem validation_failure_short_circuits_witness :
    (userSchema.safeParse (JsValue.object [("name", JsValue.string "")]) =
        SafeParseReturn.failure
          [{ code := "too_small", path := ["name"], message := "Name is required" },
           { code := "invalid_type", path := ["email"], message := "Required" }] ∧
      postUsers memStore (JsValue.object [("name", JsValue.string "")]) Store.sample =
        { response :=
            { status := 400,
              body := ResBody.errorIssues
                [{ code := "too_small", path := ["name"], message := "Name is required" },
                 { code := "invalid_type", path := ["email"], message := "Required" }] },
          store := Store.sample, calls := [] }) ∧
    (postSchema.safeParse (postBody (JsValue.number (JsNumber.finite (-1)))) =
        SafeParseReturn.failure
          [{ code := "too_small", path := ["authorId"], message := "Invalid author ID" }] ∧
      postPosts memStore (postBody (JsValue.number (JsNumber.finite (-1)))) Store.sample =
        { response :=
            { status := 400,
              body := ResBody.errorIssues
                [{ code := "too_small", path := ["authorId"], message := "Invalid author ID" }] },
          store := Store.sample, calls := [] }) ∧
    (updatePostSchema.safeParse (JsValue.object [("published", JsValue.null)]) =
        SafeParseReturn.failure
          [{ code := "invalid_type", path := ["published"],
             message := "Expected boolean, received null" }] ∧
      putPosts memStore "1" (JsValue.object [("published", JsValue.null)]) Store.sample =
        { response :=
            { status := 400,
              body := ResBody.errorIssues
                [{ code := "invalid_type", path := ["published"],
                   message := "Expected boolean, received null" }] },
          store := Store.sample, calls := [] }) :=
  ⟨⟨rfl, ((validation_failure_short_circuits memStore Store.sample "1"
      (JsValue.object [("name", JsValue.string "")])
      [{ code := "too_small", path := ["name"], message := "Name is required" },
       { code := "invalid_type", path := ["email"], message := "Required" }]).1 rfl).2⟩,
   ⟨rfl, ((validation_failure_short_circuits memStore Store.sample "1"
      (postBody (JsValue.number (JsNumber.finite (-1))))
      [{ code := "too_small", path := ["authorId"], message := "Invalid author ID" }]).2.1 rfl).2⟩,
   ⟨rfl, ((validation_failure_short_circuits memStore Store.sample "1"
      (JsValue.object [("published", JsValue.null)])
      [{ code := "invalid_type", path := ["published"],
         message := "Expected boolean, received null" }]).2.2 rfl).2⟩⟩

theorem failsWith_tryCall {σ : Type} (prisma : PrismaClient σ) (call : PrismaCall) (ok err : Nat)
    (s : σ) (message : String) (h : FailsWith prisma s (tryCall prisma call ok err s) message) :
    (tryCall prisma call ok err s).response =
      { status := err, body := ResBody.errorMessage message } := by
  obtain ⟨call1, s1, hc, hf⟩ := h
  rw [tryCall_calls] at hc
  injection hc with hc _
  subst hc
  rw [tryCall_error prisma call ok err s s1 message hf]

/-- Claim C7.  Whenever the call a handler makes on the Prisma client is rejected with
message `m`, the body is `m` under `error` and the status is 400 on the five write and
delete routes and 500 on the two read routes.  (A handler makes a call only after its body
passed validation, so the statement covers every validated request.) -/
theorem store_failure_status {σ : Type} (prisma : PrismaClient σ) (s : σ) (message : String) :
    (∀ body, FailsWith prisma s (postUsers prisma body s) message →
      (postUsers prisma body s).response =
        { status := 400, body := ResBody.errorMessage message }) ∧
    (∀ body, FailsWith prisma s (postPosts prisma body s) message →
      (postPosts prisma body s).response =
        { status := 400, body := ResBody.errorMessage message }) ∧
    (∀ id body, FailsWith prisma s (putPosts prisma id body s) message →
      (putPosts prisma id body s).response =
        { status := 400, body := ResBody.errorMessage message }) ∧
    (∀ id, FailsWith prisma s (deletePosts prisma id s) message →
      (deletePosts prisma id s).response =
        { status := 400, body := ResBody.errorMessage message }) ∧
    (∀ id, FailsWith prisma s (deleteUsers prisma id s) message →
      (deleteUsers prisma id s).response =
        { status := 400, body := ResBody.errorMessage message }) ∧
    (FailsWith prisma s (getUsers prisma s) message →
      (getUsers prisma s).response = { status := 500, body := ResBody.errorMessage message }) ∧
    (FailsWith prisma s (getPosts prisma s) message →
      (getPosts prisma s).response = { status := 500, body := ResBody.errorMessage message }) := by
  refine ⟨?_, ?_, ?_, ?_, ?_, ?_, ?_⟩
  · intro body h
    unfold postUsers at h ⊢
    cases hv : userSchema.safeParse body with
    | failure errors =>
      obtain ⟨call, s1, hc, _⟩ := h
      simp [hv, validationFailed] at hc
    | success data =>
      simp only [hv] at h ⊢
      exact failsWith_tryCall _ _ _ _ _ _ h
  · intro body h
    unfold postPosts at h ⊢
    cases hv : postSchema.safeParse body with
    | failure errors =>
      obtain ⟨call, s1, hc, _⟩ := h
      simp [hv, validationFailed] at hc
    | success data =>
      simp only [hv] at h ⊢
      exact failsWith_tryCall _ _ _ _ _ _ h
  · intro id body h
    unfold putPosts at h ⊢
    cases hv : updatePostSchema.safeParse body with
    | failure errors =>
      obtain ⟨call, s1, hc, _⟩ := h
      simp [hv, validationFailed] at hc
    | success data =>
      simp only [hv] at h ⊢
      exact failsWith_tryCall _ _ _ _ _ _ h
  · intro id h
    exact failsWith_tryCall _ _ _ _ _ _ h
  · intro id h
    exact failsWith_tryCall _ _ _ _ _ _ h
  · intro h
    exact failsWith_tryCall _ _ _ _ _ _ h
  · intro h
    exact failsWith_tryCall _ _ _ _ _ _ h

/-- The seven routes with a rejected call: on the reference store, a post for an author
that matches no user, an update and a delete of the absent post 99, and the delete of a
user who owns a post are answered 400; on a store that cannot be reached, `POST /users` is
answered 400 and the two read routes 500. -/
theorem store_failure_status_witness :
    (FailsWith unavailableStore () (postUsers unavailableStore adaBody ())
        "Cannot reach database server" ∧
      (postUsers unavailableStore adaBody ()).response =
        { status := 400, body := ResBody.errorMessage "Cannot reach database server" }) ∧
    (FailsWith memStore Store.sample
        (postPosts memStore (postBody (JsValue.number (JsNumber.finite 7))) Store.sample)
        "Foreign key constraint failed: authorId" ∧
      (postPosts memStore (postBody (JsValue.number (JsNumber.finite 7))) Store.sample).response =
        { status := 400, body := ResBody.errorMessage "Foreign key constraint failed: authorId" }) ∧
    (FailsWith memStore Store.sample (putPosts memStore "99" (JsValue.object []) Store.sample)
        "Record to update not found" ∧
      (putPosts memStore "99" (JsValue.object []) Store.sample).response =
        { status := 400, body := ResBody.errorMessage "Record to update not found" }) ∧
    (FailsWith memStore Store.sample (deletePosts memStore "99" Store.sample)
        "Record to delete does not exist" ∧
      (deletePosts memStore "99" Store.sample).response =
        { status := 400, body := ResBody.errorMessage "Record to delete does not exist" }) ∧
    (FailsWith memStore Store.sample (deleteUsers memStore "1" Store.sample)
        "Foreign key constraint failed: authorId" ∧
      (deleteUsers memStore "1" Store.sample).response =
        { status := 400, body := ResBody.errorMessage "Foreign key constraint failed: authorId" }) ∧
    (FailsWith unavailableStore () (getUsers unavailableStore ()) "Cannot reach database server" ∧
      (getUsers unavailableStore ()).response =
        { status := 500, body := ResBody.errorMessage "Cannot reach database server" }) ∧
    (FailsWith unavailableStore () (getPosts unavailableStore ()) "Cannot reach database server" ∧
      (getPosts unavailableStore ()).response =
        { status := 500, body := ResBody.errorMessage "Cannot reach database server" }) :=
  ⟨⟨⟨_, _, rfl, rfl⟩,
    (store_failure_status unavailableStore () "Cannot reach database server").1 adaBody
      ⟨_, _, rfl, rfl⟩⟩,
   ⟨⟨_, _, rfl, rfl⟩,
    (store_failure_status memStore Store.sample "Foreign key constraint failed: authorId").2.1
      (postBody (JsValue.number (JsNumber.finite 7))) ⟨_, _, rfl, rfl⟩⟩,
   ⟨⟨_, _, rfl, rfl⟩,
    (store_failure_status memStore Store.sample "Record to update not found").2.2.1 "99"
      (JsValue.object []) ⟨_, _, rfl, rfl⟩⟩,
   ⟨⟨_, _, rfl, rfl⟩,
    (store_failure_status memStore Store.sample "Record to delete does not exist").2.2.2.1 "99"
      ⟨_, _, rfl, rfl⟩⟩,
   ⟨⟨_, _, rfl, rfl⟩,
    (store_failure_status memStore Store.sample
      "Foreign key constraint failed: authorId").2.2.2.2.1 "1" ⟨_, _, rfl, rfl⟩⟩,
   ⟨⟨_, _, rfl, rfl⟩,
    (store_failure_status unavailableStore () "Cannot reach database server").2.2.2.2.2.1
      ⟨_, _, rfl, rfl⟩⟩,
   ⟨⟨_, _, rfl, rfl⟩,
    (store_failure_status unavailableStore () "Cannot reach database server").2.2.2.2.2.2
      ⟨_, _, rfl, rfl⟩⟩⟩

/-- Claim C8.  A body that passes UserCreate (whatever further keys it carries) makes
`POST /users` hand the store a record with exactly `name` and `email`, holding the body's
values; when the store accepts it, the response is 201 with the store's record and the
store state is the store's.  Likewise `POST /posts` with `title`, `content`, `authorId`. -/
theorem creation_uses_declared_fields {σ : Type} (prisma : PrismaClient σ) (s : σ)
    (body data : JsValue) :
    (userSchema.safeParse body = SafeParseReturn.success data →
      ∃ name email,
        body.get "name" = JsValue.string name ∧ body.get "email" = JsValue.string email ∧
        (postUsers prisma body s).calls =
          [PrismaCall.userCreate
            (JsValue.object [("name", JsValue.string name), ("email", JsValue.string email)])] ∧
        ∀ record s1,
          prisma (PrismaCall.userCreate
            (JsValue.object [("name", JsValue.string name), ("email", JsValue.string email)])) s =
              (Except.ok record, s1) →
          (postUsers prisma body s).response = { status := 201, body := ResBody.json record } ∧
          (postUsers prisma body s).store = s1) ∧
    (postSchema.safeParse body = SafeParseReturn.success data →
      ∃ (title content : String) (authorId : ℚ),
        body.get "title" = JsValue.string title ∧ body.get "content" = JsValue.string content ∧
        body.get "authorId" = JsValue.number (JsNumber.finite authorId) ∧
        (postPosts prisma body s).calls =
          [PrismaCall.postCreate
            (JsValue.object
              [("title", JsValue.string title), ("content", JsValue.string content),
               ("authorId", JsValue.number (JsNumber.finite authorId))])] ∧
        ∀ record s1,
          prisma (PrismaCall.postCreate
            (JsValue.object
              [("title", JsValue.string title), ("content", JsValue.string content),
               ("authorId", JsValue.number (JsNumber.finite authorId))])) s =
              (Except.ok record, s1) →
          (postPosts prisma body s).response = { status := 201, body := ResBody.json record } ∧
          (postPosts prisma body s).store = s1) := by
  constructor
  · intro h
    obtain ⟨props, rfl⟩ := safeParse_success_object _ _ _ h
    obtain ⟨name, email, hn, _, he, _, hd⟩ := userSchema_success props data h
    refine ⟨name, email, hn, he, ?_, ?_⟩
    · simp [postUsers, h, tryCall_calls, hd, JsValue.get, getField]
    · intro record s1 hok
      simp [postUsers, h, hd, JsValue.get, getField, tryCall_ok _ _ _ _ _ _ _ hok]
  · intro h
    obtain ⟨props, rfl⟩ := safeParse_success_object _ _ _ h
    obtain ⟨title, content, q, ht, _, hc, _, hq, _, _, hd⟩ := postSchema_success props data h
    refine ⟨title, content, q, ht, hc, hq, ?_, ?_⟩
    · simp [postPosts, h, tryCall_calls, hd, JsValue.get, getField]
    · intro record s1 hok
      simp [postPosts, h, hd, JsValue.get, getField, tryCall_ok _ _ _ _ _ _ _ hok]

/-- The body with name Ada, her e-mail and an extra key `id` on the empty reference store:
the store receives name and e-mail only, and the response is 201 with identifier 1.  A
post by user 1 on the sample store is answered 201 with identifier 2. -/
theorem creation_uses_declared_fields_witness :
    (userSchema.safeParse adaBody =
        SafeParseReturn.success
          (JsValue.object
            [("name", JsValue.string "Ada"), ("email", JsValue.string "ada@example.com")]) ∧
      ∃ name email,
        adaBody.get "name" = JsValue.string name ∧ adaBody.get "email" = JsValue.string email ∧
        (postUsers memStore adaBody Store.empty).calls =
          [PrismaCall.userCreate
            (JsValue.object [("name", JsValue.string name), ("email", JsValue.string email)])] ∧
        ∀ record s1,
          memStore (PrismaCall.userCreate
            (JsValue.object [("name", JsValue.string name), ("email", JsValue.string email)]))
              Store.empty = (Except.ok record, s1) →
          (postUsers memStore adaBody Store.empty).response =
            { status := 201, body := ResBody.json record } ∧
          (postUsers memStore adaBody Store.empty).store = s1) ∧
    postUsers memStore adaBody Store.empty =
      { response :=
          { status := 201,
            body := ResBody.json
              (JsValue.object
                [("id", JsValue.number (JsNumber.finite 1)), ("name", JsValue.string "Ada"),
                 ("email", JsValue.string "ada@example.com")]) },
        store :=
          { users := [{ id := 1, name := "Ada", email := "ada@example.com" }], posts := [],
            nextUserId := 2, nextPostId := 1 },
        calls :=
          [PrismaCall.userCreate
            (JsValue.object
              [("name", JsValue.string "Ada"), ("email", JsValue.string "ada@example.com")])] } ∧
    (postSchema.safeParse (postBody (JsValue.number (JsNumber.finite 1))) =
        SafeParseReturn.success (postBody (JsValue.number (JsNumber.finite 1))) ∧
      ∃ (title content : String) (authorId : ℚ),
        (postBody (JsValue.number (JsNumber.finite 1))).get "title" = JsValue.string title ∧
        (postBody (JsValue.number (JsNumber.finite 1))).get "content" =
          JsValue.string content ∧
        (postBody (JsValue.number (JsNumber.finite 1))).get "authorId" =
          JsValue.number (JsNumber.finite authorId) ∧
        (postPosts memStore (postBody (JsValue.number (JsNumber.finite 1))) Store.sample).calls =
          [PrismaCall.postCreate
            (JsValue.object
              [("title", JsValue.string title), ("content", JsValue.string content),
               ("authorId", JsValue.number (JsNumber.finite authorId))])] ∧
        ∀ record s1,
          memStore (PrismaCall.postCreate
            (JsValue.object
              [("title", JsValue.string title), ("content", JsValue.string content),
               ("authorId", JsValue.number (JsNumber.finite authorId))])) Store.sample =
              (Except.ok record, s1) →
          (postPosts memStore (postBody (JsValue.number (JsNumber.finite 1)))
              Store.sample).response = { status := 201, body := ResBody.json record } ∧
          (postPosts memStore (postBody (JsValue.number (JsNumber.finite 1)))
              Store.sample).store = s1) ∧
    (postPosts memStore (postBody (JsValue.number (JsNumber.finite 1))) Store.sample).response =
      { status := 201,
        body := ResBody.json
          (JsValue.object
            [("id", JsValue.number (JsNumber.finite 2)), ("title", JsValue.string "T"),
             ("content", JsValue.string "C"), ("published", JsValue.bool false),
             ("authorId", JsValue.number (JsNumber.finite 1))]) } :=
  ⟨⟨rfl,
    (creation_uses_declared_fields memStore Store.empty adaBody
      (JsValue.object
        [("name", JsValue.string "Ada"), ("email", JsValue.string "ada@example.com")])).1 rfl⟩,
   rfl,
   ⟨rfl,
    (creation_uses_declared_fields memStore Store.sample
      (postBody (JsValue.number (JsNumber.finite 1)))
      (postBody (JsValue.number (JsNumber.finite 1)))).2 rfl⟩,
   rfl⟩

theorem Post.update_getD (x : Post) (data : JsValue) :
    ((x.update data).getD x).id = x.id ∧ ((x.update data).getD x).authorId = x.authorId := by
  unfold Post.update
  split <;> simp

theorem Post.update_data (x : Post) (v1 v2 v3 : JsValue) (t c : String) (b : Bool)
    (ht : updateText x.title v1 = some t) (hc : updateText x.content v2 = some c)
    (hb : updateBool x.published v3 = some b) :
    x.update (JsValue.object [("title", v1), ("content", v2), ("published", v3)]) =
      some { x with title := t, content := c, published := b } := by
  simp [Post.update, JsValue.get, getField, ht, hc, hb]

theorem updateText_of_rule (stored : String) (v : JsValue) (h : optionalTextRule v = true) :
    ∃ t, updateText stored v = some t ∧ (v = JsValue.undefined → t = stored) ∧
      (∀ u, v = JsValue.string u → t = u) := by
  cases v <;> simp [optionalTextRule] at h <;> simp [updateText]

theorem updateBool_of_rule (stored : Bool) (v : JsValue) (h : optionalBooleanRule v = true) :
    ∃ b, updateBool stored v = some b ∧ (v = JsValue.undefined → b = stored) ∧
      (∀ u, v = JsValue.bool u → b = u) := by
  cases v <;> simp [optionalBooleanRule] at h <;> simp [updateBool]

theorem find_map_update (posts : List Post) (whereId : JsNumber) (f : Post → Post)
    (hf : ∀ x, (f x).id = x.id) :
    (posts.map (fun x => if idMatches whereId x.id then f x else x)).find?
        (fun x => idMatches whereId x.id) =
      (posts.find? (fun x => idMatches whereId x.id)).map f := by
  induction posts with
  | nil => rfl
  | cons x rest ih =>
    by_cases hx : idMatches whereId x.id = true
    · simp [List.find?, hx, hf]
    · simp only [Bool.not_eq_true] at hx
      simp [List.find?, hx, ih]

/-- Claim C6.  For a body that passes PostUpdate, `PUT /posts/:id` passes each of `title`,
`content`, `published` to the store update with the body's value, and an absent field is
passed unset.  On the reference store, when the target post exists, the response is 200
with the updated record, in which a field the body sets has the body's value and a field
left unset has the stored value; the empty body is valid, answers 200 with the unmodified
record and leaves the store as it was. -/
theorem partial_update_applies_present_fields (id : String) (props : List (String × JsValue)) :
    (∀ (σ : Type) (prisma : PrismaClient σ) (s : σ) (data : JsValue),
      updatePostSchema.safeParse (JsValue.object props) = SafeParseReturn.success data →
      (putPosts prisma id (JsValue.object props) s).calls =
        [PrismaCall.postUpdate (parseInt id)
          (JsValue.object
            [("title", getField props "title"), ("content", getField props "content"),
             ("published", getField props "published")])] ∧
      (hasField props "title" = false → getField props "title" = JsValue.undefined) ∧
      (hasField props "content" = false → getField props "content" = JsValue.undefined) ∧
      (hasField props "published" = false → getField props "published" = JsValue.undefined)) ∧
    (∀ (s : Store) (p : Post) (data : JsValue),
      updatePostSchema.safeParse (JsValue.object props) = SafeParseReturn.success data →
      s.findPost (parseInt id) = some p →
      ∃ p1 : Post,
        (putPosts memStore id (JsValue.object props) s).response =
          { status := 200, body := ResBody.json p1.record } ∧
        (putPosts memStore id (JsValue.object props) s).store.findPost (parseInt id) = some p1 ∧
        p1.id = p.id ∧ p1.authorId = p.authorId ∧
        (getField props "title" = JsValue.undefined → p1.title = p.title) ∧
        (∀ t, getField props "title" = JsValue.string t → p1.title = t) ∧
        (getField props "content" = JsValue.undefined → p1.content = p.content) ∧
        (∀ t, getField props "content" = JsValue.string t → p1.content = t) ∧
        (getField props "published" = JsValue.undefined → p1.published = p.published) ∧
        (∀ b, getField props "published" = JsValue.bool b → p1.published = b)) ∧
    (∀ (s : Store) (p : Post), s.findPost (parseInt id) = some p →
      updatePostSchema.safeParse (JsValue.object []) =
        SafeParseReturn.success (JsValue.object []) ∧
      (putPosts memStore id (JsValue.object []) s).response =
        { status := 200, body := ResBody.json p.record } ∧
      (putPosts memStore id (JsValue.object []) s).store = s) := by
  refine ⟨?_, ?_, ?_⟩
  · intro σ prisma s data h
    obtain ⟨_, _, _, h1, h2, h3⟩ := updatePostSchema_success props data h
    refine ⟨?_, getField_of_hasField_false _ _, getField_of_hasField_false _ _,
      getField_of_hasField_false _ _⟩
    simp only [putPosts, h, tryCall_calls, h1, h2, h3]
  · intro s p data h hp
    obtain ⟨r1, r2, r3, h1, h2, h3⟩ := updatePostSchema_success props data h
    obtain ⟨t, ht, ht1, ht2⟩ := updateText_of_rule p.title _ r1
    obtain ⟨c, hc, hc1, hc2⟩ := updateText_of_rule p.content _ r2
    obtain ⟨b, hb, hb1, hb2⟩ := updateBool_of_rule p.published _ r3
    have hup : ∀ x : Post, x.update
        (JsValue.object
          [("title", getField props "title"), ("content", getField props "content"),
           ("published", getField props "published")]) =
        some { x with
          title := (updateText x.title (getField props "title")).getD x.title,
          content := (updateText x.content (getField props "content")).getD x.content,
          published := (updateBool x.published (getField props "published")).getD x.published } := by
      intro x
      obtain ⟨t, ht, _⟩ := updateText_of_rule x.title _ r1
      obtain ⟨c, hc, _⟩ := updateText_of_rule x.content _ r2
      obtain ⟨b, hb, _⟩ := updateBool_of_rule x.published _ r3
      rw [Post.update_data x _ _ _ t c b ht hc hb, ht, hc, hb]
      rfl
    obtain ⟨t, ht, ht1, ht2⟩ := updateText_of_rule p.title _ r1
    obtain ⟨c, hc, hc1, hc2⟩ := updateText_of_rule p.content _ r2
    obtain ⟨b, hb, hb1, hb2⟩ := updateBool_of_rule p.published _ r3
    have hp1 := hup p
    rw [ht, hc, hb] at hp1
    simp only [Option.getD_some] at hp1
    refine ⟨{ p with title := t, content := c, published := b }, ?_, ?_, rfl, rfl,
      ht1, ht2, hc1, hc2, hb1, hb2⟩
    · simp only [putPosts, h, h1, h2, h3, tryCall, memStore, hp, hp1]
    · simp only [putPosts, h, h1, h2, h3, tryCall, memStore, hp, hp1]
      have hp2 : s.posts.find? (fun x => idMatches (parseInt id) x.id) = some p := hp
      have hmap := find_map_update s.posts (parseInt id)
        (fun x => (x.update
          (JsValue.object
            [("title", getField props "title"), ("content", getField props "content"),
             ("published", getField props "published")])).getD x)
        (fun x => (Post.update_getD x _).1)
      simp only [Store.findPost, hmap, hp2, Option.map_some', hp1, Option.getD_some]
  · intro s p hp
    refine ⟨rfl, ?_, ?_⟩
    · simp [putPosts, ZodObject.safeParse, ZodObject.parse, updatePostSchema, ZodObject.pairs,
        ZodType.parse, mergeObjectSync, getField, hasField, JsValue.isDefined, JsValue.get,
        tryCall, memStore, hp, Post.update, updateText, updateBool]
    · simp [putPosts, ZodObject.safeParse, ZodObject.parse, updatePostSchema, ZodObject.pairs,
        ZodType.parse, mergeObjectSync, getField, hasField, JsValue.isDefined, JsValue.get,
        tryCall, memStore, hp, Post.update, updateText, updateBool]

/-- Setting only `published` on the sample post keeps its title and content, and the empty
body returns the post as it is stored and leaves the store unchanged. -/
theorem partial_update_applies_present_fields_witness :
    (updatePostSchema.safeParse (JsValue.object [("published", JsValue.bool true)]) =
        SafeParseReturn.success (JsValue.object [("published", JsValue.bool true)]) ∧
      Store.sample.findPost (parseInt "1") =
        some { id := 1, title := "Hello", content := "First post", published := false,
               authorId := 1 }) ∧
    ((putPosts memStore "1" (JsValue.object [("published", JsValue.bool true)])
          Store.sample).calls =
        [PrismaCall.postUpdate (parseInt "1")
          (JsValue.object
            [("title", getField [("published", JsValue.bool true)] "title"),
             ("content", getField [("published", JsValue.bool true)] "content"),
             ("published", getField [("published", JsValue.bool true)] "published")])] ∧
      (hasField [("published", JsValue.bool true)] "title" = false →
        getField [("published", JsValue.bool true)] "title" = JsValue.undefined) ∧
      (hasField [("published", JsValue.bool true)] "content" = false →
        getField [("published", JsValue.bool true)] "content" = JsValue.undefined) ∧
      (hasField [("published", JsValue.bool true)] "published" = false →
        getField [("published", JsValue.bool true)] "published" = JsValue.undefined)) ∧
    (∃ p1 : Post,
      (putPosts memStore "1" (JsValue.object [("published", JsValue.bool true)])
          Store.sample).response = { status := 200, body := ResBody.json p1.record } ∧
      (putPosts memStore "1" (JsValue.object [("published", JsValue.bool true)])
          Store.sample).store.findPost (parseInt "1") = some p1 ∧
      p1.id = 1 ∧ p1.authorId = 1 ∧
      (getField [("published", JsValue.bool true)] "title" = JsValue.undefined →
        p1.title = "Hello") ∧
      (∀ t, getField [("published", JsValue.bool true)] "title" = JsValue.string t →
        p1.title = t) ∧
      (getField [("published", JsValue.bool true)] "content" = JsValue.undefined →
        p1.content = "First post") ∧
      (∀ t, getField [("published", JsValue.bool true)] "content" = JsValue.string t →
        p1.content = t) ∧
      (getField [("published", JsValue.bool true)] "published" = JsValue.undefined →
        p1.published = false) ∧
      (∀ b, getField [("published", JsValue.bool true)] "published" = JsValue.bool b →
        p1.published = b)) ∧
    (putPosts memStore "1" (JsValue.object [("published", JsValue.bool true)])
        Store.sample).store.posts =
      [{ id := 1, title := "Hello", content := "First post", published := true, authorId := 1 }] ∧
    (updatePostSchema.safeParse (JsValue.object []) = SafeParseReturn.success (JsValue.object []) ∧
      (putPosts memStore "1" (JsValue.object []) Store.sample).response =
        { status := 200,
          body := ResBody.json
            (Post.record
              { id := 1, title := "Hello", content := "First post", published := false,
                authorId := 1 }) } ∧
      (putPosts memStore "1" (JsValue.object []) Store.sample).store = Store.sample) :=
  ⟨⟨rfl, rfl⟩,
   (partial_update_applies_present_fields "1" [("published", JsValue.bool true)]).1
      Store memStore Store.sample (JsValue.object [("published", JsValue.bool true)]) rfl,
   (partial_update_applies_present_fields "1" [("published", JsValue.bool true)]).2.1
      Store.sample
      { id := 1, title := "Hello", content := "First post", published := false, authorId := 1 }
      (JsValue.object [("published", JsValue.bool true)]) rfl rfl,
   rfl,
   (partial_update_applies_present_fields "1" []).2.2 Store.sample
      { id := 1, title := "Hello", content := "First post", published := false, authorId := 1 }
      rfl⟩

/-! ## The field rules -/

theorem splitDots_ne_nil (d : List Char) : splitDots d ≠ [] := by
  induction d with
  | nil => simp [splitDots]
  | cons c rest ih =>
    unfold splitDots
    split
    · simp
    · split <;> simp

theorem splitDots_of_no_dot (d : List Char) (h : '.' ∉ d) : splitDots d = [d] := by
  induction d with
  | nil => rfl
  | cons c rest ih =>
    simp only [List.mem_cons, not_or] at h
    have hc : c ≠ '.' := fun e => h.1 e.symm
    rw [splitDots, if_neg hc, ih h.2]

theorem splitDots_mem (d : List Char) (c : Char) (hc : c ∈ d) :
    c = '.' ∨ ∃ piece ∈ splitDots d, c ∈ piece := by
  induction d with
  | nil => cases hc
  | cons x rest ih =>
    by_cases hx : x = '.'
    · rcases List.mem_cons.mp hc with h | h
      · exact Or.inl (h.trans hx)
      · rcases ih h with h1 | ⟨piece, hp, hcp⟩
        · exact Or.inl h1
        · refine Or.inr ⟨piece, ?_, hcp⟩
          rw [splitDots, if_pos hx]
          exact List.mem_cons_of_mem _ hp
    · rw [splitDots, if_neg hx]
      cases hsd : splitDots rest with
      | nil => exact absurd hsd (splitDots_ne_nil rest)
      | cons l ls =>
        simp only
        rcases List.mem_cons.mp hc with h | h
        · exact Or.inr ⟨x :: l, List.mem_cons_self _ _, h ▸ List.mem_cons_self _ _⟩
        · rcases ih h with h1 | ⟨piece, hp, hcp⟩
          · exact Or.inl h1
          · rw [hsd] at hp
            rcases List.mem_cons.mp hp with h2 | h2
            · exact Or.inr ⟨x :: l, List.mem_cons_self _ _, List.mem_cons_of_mem _ (h2 ▸ hcp)⟩
            · exact Or.inr ⟨piece, List.mem_cons_of_mem _ h2, hcp⟩

theorem at_not_alphanum : Char.isAlphanum '@' = false := by decide

theorem domainOk_no_at (d : List Char) (h : domainOk d = true) : '@' ∉ d := by
  intro hmem
  unfold domainOk at h
  simp only at h
  cases hl : (splitDots d).getLast? with
  | none => rw [hl] at h; cases h
  | some tld =>
    rw [hl] at h
    simp only [Bool.and_eq_true, decide_eq_true_eq, List.all_eq_true] at h
    obtain ⟨⟨_, hlabels⟩, htld⟩ := h
    rcases splitDots_mem d '@' hmem with h1 | ⟨piece, hp, hcp⟩
    · exact absurd h1 (by decide)
    · have hsplit : splitDots d = (splitDots d).dropLast ++ [tld] := by
        have := List.dropLast_append_getLast? tld (Option.mem_def.mpr hl)
        exact this.symm
      rw [hsplit] at hp
      rcases List.mem_append.mp hp with h2 | h2
      · have hok := hlabels piece h2
        cases piece with
        | nil => cases hcp
        | cons x xs =>
          simp only [domainLabelOk, Bool.and_eq_true, List.all_eq_true] at hok
          rcases List.mem_cons.mp hcp with h3 | h3
          · rw [← h3] at hok
            have := hok.1
            rw [at_not_alphanum] at this
            cases this
          · have := hok.2 _ h3
            simp [isLabelChar, at_not_alphanum] at this
      · simp only [List.mem_singleton] at h2
        subst h2
        simp only [topLevelOk, Bool.and_eq_true, decide_eq_true_eq, List.all_eq_true] at htld
        have := htld.2 _ hcp
        revert this
        decide

theorem domainOk_has_dot (d : List Char) (h : domainOk d = true) : '.' ∈ d := by
  by_contra hno
  unfold domainOk at h
  simp only [splitDots_of_no_dot d hno] at h
  simp at h

theorem split_at_first (l0 d0 l d : List Char) (h : l0 ++ '@' :: d0 = l ++ '@' :: d)
    (hl0 : '@' ∉ l0) (hd0 : '@' ∉ d0) : d = d0 := by
  rcases List.append_eq_append_iff.mp h with ⟨a, ha, hb⟩ | ⟨c, hc, hb⟩
  · cases a with
    | nil => simpa using hb.symm
    | cons x xs =>
      simp only [List.cons_append, List.cons.injEq] at hb
      exact absurd (hb.2 ▸ List.mem_append_right xs (List.mem_cons_self _ _)) hd0
  · cases c with
    | nil => simpa using hb
    | cons x xs =>
      simp only [List.cons_append, List.cons.injEq] at hb
      rw [hc, ← hb.1] at hl0
      exact absurd (List.mem_append_right l (List.mem_cons_self _ _)) hl0

theorem splitDots_of_trailing_dot (d : List Char) (h : d.getLast? = some '.') :
    ∃ init, init ≠ [] ∧ splitDots d = init ++ [[]] := by
  induction d with
  | nil => cases h
  | cons c rest ih =>
    cases rest with
    | nil =>
      simp only [List.getLast?_singleton, Option.some.injEq] at h
      subst h
      exact ⟨[[]], by simp, rfl⟩
    | cons r rs =>
      have hrest : (r :: rs).getLast? = some '.' := by
        rw [List.getLast?_cons_cons] at h
        exact h
      obtain ⟨init, hne, hsplit⟩ := ih hrest
      obtain ⟨l, ls, rfl⟩ := List.exists_cons_of_ne_nil hne
      by_cases hc : c = '.'
      · refine ⟨[] :: l :: ls, by simp, ?_⟩
        rw [splitDots, if_pos hc, hsplit]
        rfl
      · refine ⟨(c :: l) :: ls, by simp, ?_⟩
        rw [splitDots, if_neg hc, hsplit]
        rfl

theorem domainOk_no_trailing_dot (d : List Char) (h : domainOk d = true) :
    d.getLast? ≠ some '.' := by
  intro hlast
  obtain ⟨init, _, hsplit⟩ := splitDots_of_trailing_dot d hlast
  unfold domainOk at h
  simp [hsplit, topLevelOk] at h

theorem hasDoubleDot_iff (cs : List Char) :
    hasDoubleDot cs = true ↔ ∃ a b, cs = a ++ '.' :: '.' :: b := by
  induction cs with
  | nil => simp [hasDoubleDot]
  | cons c rest ih =>
    by_cases h : ∃ r, c = '.' ∧ rest = '.' :: r
    · obtain ⟨r, rfl, rfl⟩ := h
      simp only [hasDoubleDot, true_iff]
      exact ⟨[], r, rfl⟩
    · have hstep : hasDoubleDot (c :: rest) = hasDoubleDot rest := by
        conv_lhs => unfold hasDoubleDot
        split
        · rename_i heq
          injection heq with h1 h2
          exact absurd ⟨_, h1, h2⟩ h
        · rename_i heq
          injection heq with h1 h2
          subst h2
          rfl
        · rename_i heq; cases heq
      rw [hstep, ih]
      constructor
      · rintro ⟨a, b, rfl⟩
        exact ⟨c :: a, b, rfl⟩
      · rintro ⟨a, b, hab⟩
        cases a with
        | nil =>
          simp only [List.nil_append, List.cons.injEq] at hab
          exact absurd ⟨b, hab.1, hab.2⟩ h
        | cons x xs =>
          simp only [List.cons_append, List.cons.injEq] at hab
          exact ⟨xs, b, hab.2⟩

theorem splitDots_spec (d : List Char) :
    ∃ init last, splitDots d = init ++ [last] ∧
      d = init.flatMap (fun l => l ++ ['.']) ++ last := by
  induction d with
  | nil => exact ⟨[], [], rfl, rfl⟩
  | cons c rest ih =>
    obtain ⟨init, last, hs, hd⟩ := ih
    by_cases hc : c = '.'
    · refine ⟨[] :: init, last, ?_, ?_⟩
      · rw [splitDots, if_pos hc, hs]; rfl
      · rw [hc, hd]; simp
    · cases init with
      | nil =>
        refine ⟨[], c :: last, ?_, ?_⟩
        · rw [splitDots, if_neg hc, hs]; rfl
        · rw [hd]; simp
      | cons l ls =>
        refine ⟨(c :: l) :: ls, last, ?_, ?_⟩
        · rw [splitDots, if_neg hc, hs]; rfl
        · rw [hd]; simp

theorem splitDots_append_dot (l r : List Char) (h : '.' ∉ l) :
    splitDots (l ++ '.' :: r) = l :: splitDots r := by
  induction l with
  | nil => simp [splitDots]
  | cons c l ih =>
    simp only [List.mem_cons, not_or] at h
    have hc : c ≠ '.' := fun e => h.1 e.symm
    rw [List.cons_append, splitDots, if_neg hc, ih h.2]

theorem splitDots_labels (labels : List (List Char)) (tld : List Char)
    (hl : ∀ l ∈ labels, '.' ∉ l) (ht : '.' ∉ tld) :
    splitDots (labels.flatMap (fun l => l ++ ['.']) ++ tld) = labels ++ [tld] := by
  induction labels with
  | nil => simpa using splitDots_of_no_dot tld ht
  | cons l ls ih =>
    have := splitDots_append_dot l (ls.flatMap (fun l => l ++ ['.']) ++ tld)
      (hl l (List.mem_cons_self _ _))
    simp only [List.flatMap_cons, List.append_assoc, List.singleton_append, List.cons_append,
      List.nil_append]
    rw [this, ih (fun x hx => hl x (List.mem_cons_of_mem _ hx))]


theorem isLocalChar_iff (c : Char) :
    isLocalChar c = true ↔ (c.isAlphanum = true ∨ c ∈ ['_', '\'', '+', '-', '.']) := by
  simp [isLocalChar, or_assoc]

theorem isLocalEndChar_iff (c : Char) :
    isLocalEndChar c = true ↔ (c.isAlphanum = true ∨ c ∈ ['_', '+', '-']) := by
  simp [isLocalEndChar, or_assoc]

theorem isLabelChar_iff (c : Char) :
    isLabelChar c = true ↔ (c.isAlphanum = true ∨ c = '-') := by
  simp [isLabelChar]

theorem domainLabelOk_iff (l : List Char) :
    domainLabelOk l = true ↔
      ∃ c r, l = c :: r ∧ c.isAlphanum = true ∧ ∀ x ∈ r, x.isAlphanum = true ∨ x = '-' := by
  cases l with
  | nil => simp [domainLabelOk]
  | cons c r =>
    simp only [domainLabelOk, Bool.and_eq_true, List.all_eq_true, isLabelChar_iff,
      List.cons.injEq]
    constructor
    · rintro ⟨h1, h2⟩
      exact ⟨c, r, ⟨rfl, rfl⟩, h1, h2⟩
    · rintro ⟨c1, r1, ⟨rfl, rfl⟩, h1, h2⟩
      exact ⟨h1, h2⟩

theorem cut_at_first (l r : List Char) (h : '@' ∉ l) :
    (l ++ '@' :: r).takeWhile (fun c => c != '@') = l ∧
    (l ++ '@' :: r).dropWhile (fun c => c != '@') = '@' :: r := by
  induction l with
  | nil => simp [List.takeWhile, List.dropWhile]
  | cons c l ih =>
    simp only [List.mem_cons, not_or] at h
    have hc : (c != '@') = true := by
      simp only [bne_iff_ne, ne_eq]
      exact fun e => h.1 e.symm
    simp only [List.cons_append, List.takeWhile_cons, List.dropWhile_cons, hc, if_true,
      (ih h.2).1, (ih h.2).2, and_self]

theorem emailRegexTest_iff (s : String) : emailRegexTest s = true ↔ EmailSyntax s.toList := by
  constructor
  · intro h
    unfold emailRegexTest at h
    simp only at h
    cases hdrop : s.toList.dropWhile (fun c => c != '@') with
    | nil => rw [hdrop] at h; cases h
    | cons x d0 =>
      rw [hdrop] at h
      simp only [Bool.and_eq_true, bne_iff_ne, ne_eq, Bool.not_eq_true'] at h
      obtain ⟨⟨⟨hhead, hdd⟩, hlocal⟩, hdom⟩ := h
      have hx : x = '@' := by
        have := List.head_dropWhile_not (fun c => c != '@') s.toList
          (by rw [hdrop]; simp)
        simp only [hdrop, List.head_cons, bne_iff_ne, ne_eq, Decidable.not_not,
          Bool.not_eq_true, bne_eq_false_iff_eq] at this
        exact this
      subst hx
      have hcs : s.toList = s.toList.takeWhile (fun c => c != '@') ++ '@' :: d0 := by
        rw [← hdrop, List.takeWhile_append_dropWhile]
      obtain ⟨init, last, hsplit, hd0⟩ := splitDots_spec d0
      unfold domainOk at hdom
      simp only [hsplit, List.getLast?_append, List.getLast?_singleton, List.dropLast_concat,
        Bool.and_eq_true, decide_eq_true_eq, List.all_eq_true, List.length_append,
        List.length_singleton] at hdom
      have hor : (some last).or init.getLast? = some last := rfl
      rw [hor] at hdom
      simp only [Bool.and_eq_true, decide_eq_true_eq, List.all_eq_true, topLevelOk] at hdom
      obtain ⟨⟨hlen, hlabels⟩, htl, htld⟩ := hdom
      unfold localPartOk at hlocal
      cases hlast : (s.toList.takeWhile (fun c => c != '@')).getLast? with
      | none => rw [hlast] at hlocal; cases hlocal
      | some e =>
        rw [hlast] at hlocal
        simp only [Bool.and_eq_true, List.all_eq_true] at hlocal
        refine ⟨s.toList.takeWhile (fun c => c != '@'), last, init, ?_, hhead, ?_, ?_, ?_, ?_,
          ?_, htl, htld⟩
        · rw [← hd0]; exact hcs
        · rw [← hasDoubleDot_iff, hdd]; simp
        · intro c hc
          exact (isLocalChar_iff c).mp (hlocal.1 c hc)
        · exact ⟨e, hlast, (isLocalEndChar_iff e).mp hlocal.2⟩
        · intro hnil
          rw [hnil] at hlen
          simp at hlen
        · intro l hl
          exact (domainLabelOk_iff l).mp (hlabels l hl)
  · rintro ⟨localPart, tld, labels, hcs, hhead, hdd, hlocal, ⟨e, hlast, hend⟩, hne, hlabels,
      htl, htld⟩
    have hat : '@' ∉ localPart := by
      intro hmem
      rcases hlocal _ hmem with h | h
      · revert h; decide
      · revert h; decide
    have hdotl : ∀ l ∈ labels, '.' ∉ l := by
      intro l hl hmem
      obtain ⟨c, r, rfl, hc, hr⟩ := hlabels l hl
      rcases List.mem_cons.mp hmem with h | h
      · rw [← h] at hc; revert hc; decide
      · rcases hr _ h with h1 | h1
        · revert h1; decide
        · revert h1; decide
    have hdott : '.' ∉ tld := by
      intro hmem
      have := htld _ hmem
      revert this; decide
    obtain ⟨htake, hdrop⟩ := cut_at_first localPart
      (labels.flatMap (fun l => l ++ ['.']) ++ tld) hat
    unfold emailRegexTest
    simp only [hcs, htake, hdrop]
    rw [← hcs]
    have h1 : (s.toList.head? != some '.') = true := by
      simp only [bne_iff_ne, ne_eq]; exact hhead
    have h2 : hasDoubleDot s.toList = false := by
      cases h : hasDoubleDot s.toList with
      | false => rfl
      | true => exact absurd ((hasDoubleDot_iff _).mp h) hdd
    have h3 : localPartOk localPart = true := by
      unfold localPartOk
      rw [hlast]
      simp only [Bool.and_eq_true, List.all_eq_true]
      exact ⟨fun c hc => (isLocalChar_iff c).mpr (hlocal c hc), (isLocalEndChar_iff e).mpr hend⟩
    have h4 : domainOk (labels.flatMap (fun l => l ++ ['.']) ++ tld) = true := by
      unfold domainOk
      have hor : (some tld).or labels.getLast? = some tld := rfl
      simp only [splitDots_labels labels tld hdotl hdott, List.getLast?_append,
        List.getLast?_singleton, List.dropLast_concat, hor, Bool.and_eq_true, decide_eq_true_eq,
        List.all_eq_true, List.length_append, List.length_singleton, topLevelOk]
      refine ⟨⟨?_, fun l hl => (domainLabelOk_iff l).mpr (hlabels l hl)⟩, htl, htld⟩
      have := List.length_pos.mpr hne
      omega
    rw [h1, h2, h3, h4]
    rfl

theorem ada_email_wellformed : EmailSyntax "ada@example.com".toList :=
  ⟨"ada".toList, "com".toList, ["example".toList], rfl, by decide, by
    rw [← hasDoubleDot_iff]; decide, by decide, ⟨'a', rfl, by decide⟩, by decide,
    by
      intro l hl
      rw [List.mem_singleton.mp hl]
      exact ⟨'e', "xample".toList, rfl, by decide, by decide⟩,
    by decide, by decide⟩

theorem emailRegexTest_of_lacksShape (s : String) (h : LacksEmailShape s.toList) :
    emailRegexTest s = false := by
  unfold emailRegexTest
  simp only
  cases hdrop : s.toList.dropWhile (fun c => c != '@') with
  | nil => rfl
  | cons x d0 =>
    simp only
    have hx : x = '@' := by
      have := List.head_dropWhile_not (fun c => c != '@') s.toList
        (by rw [hdrop]; simp)
      simp only [hdrop, List.head_cons, bne_iff_ne, ne_eq, Decidable.not_not,
        Bool.not_eq_true, bne_eq_false_iff_eq] at this
      exact this
    subst hx
    have hcs : s.toList = s.toList.takeWhile (fun c => c != '@') ++ '@' :: d0 := by
      rw [← hdrop, List.takeWhile_append_dropWhile]
    have hl0 : '@' ∉ s.toList.takeWhile (fun c => c != '@') := by
      intro hmem
      have := List.mem_takeWhile_imp hmem
      simp at this
    rcases h with h | ⟨d, h⟩ | ⟨l, d, h, hdot⟩
    · exfalso
      apply h
      rw [hcs]
      exact List.mem_append_right _ (List.mem_cons_self _ _)
    · have : s.toList.takeWhile (fun c => c != '@') = [] := by
        rw [h]; simp [List.takeWhile]
      rw [this]
      simp [localPartOk]
    · cases hdom : domainOk d0 with
      | false => simp
      | true =>
        exfalso
        have hd0 := domainOk_no_at d0 hdom
        have hdd : d = d0 := split_at_first _ _ _ _ (hcs.symm.trans h) hl0 hd0
        subst hdd
        rcases hdot with hdot | hdot
        · exact hdot (domainOk_has_dot _ hdom)
        · exact domainOk_no_trailing_dot _ hdom hdot

theorem email_issues (path : List String) (message : String) (v : JsValue) :
    (ZodType.parse path v (ZodType.string [StringCheck.email message])).issues = [] ↔
      emailRule v := by
  rw [email_issues_test]
  unfold emailRule
  constructor
  · rintro ⟨s, hs, ht⟩
    exact ⟨s, hs, (emailRegexTest_iff s).mp ht⟩
  · rintro ⟨s, hs, ht⟩
    exact ⟨s, hs, (emailRegexTest_iff s).mpr ht⟩

theorem has_shape_of_cut (l0 d0 : List Char) (h1 : l0 ≠ []) (h2 : '@' ∉ l0) (h3 : '@' ∉ d0)
    (h4 : '.' ∈ d0) (h5 : d0.getLast? ≠ some '.') : ¬ LacksEmailShape (l0 ++ '@' :: d0) := by
  rintro (h | ⟨d, h⟩ | ⟨l, d, h, hd⟩)
  · exact h (List.mem_append_right _ (List.mem_cons_self _ _))
  · obtain ⟨x, xs, rfl⟩ := List.exists_cons_of_ne_nil h1
    simp only [List.cons_append, List.cons.injEq] at h
    exact h2 (h.1 ▸ List.mem_cons_self _ _)
  · have hdd : d = d0 := split_at_first _ _ _ _ h h2 h3
    subst hdd
    rcases hd with hd | hd
    · exact hd h4
    · exact h5 hd

theorem one_letter_tld_malformed : ¬ EmailSyntax "a@b.c".toList :=
  fun h => absurd ((emailRegexTest_iff "a@b.c").mpr h) (by decide)

theorem one_letter_tld_has_shape : ¬ LacksEmailShape "a@b.c".toList :=
  has_shape_of_cut "a".toList "b.c".toList (by decide) (by decide) (by decide) (by decide)
    (by decide)

theorem fieldErrors_append (l1 l2 : List ZodIssue) (key : String) :
    fieldErrors (l1 ++ l2) key = fieldErrors l1 key ++ fieldErrors l2 key := by
  simp [fieldErrors]

theorem fieldErrors_same (l : List ZodIssue) (key : String) (h : ∀ e ∈ l, e.path = [key]) :
    fieldErrors l key = l := by
  unfold fieldErrors
  rw [List.filter_eq_self]
  intro e he
  simp [h e he]

theorem fieldErrors_other (l : List ZodIssue) (key other : String) (hne : other ≠ key)
    (h : ∀ e ∈ l, e.path = [other]) : fieldErrors l key = [] := by
  unfold fieldErrors
  rw [List.filter_eq_nil_iff]
  intro e he
  simp [h e he, hne]

theorem userSchema_nameErrors (props : List (String × JsValue)) :
    fieldErrors (userSchema.safeParse (JsValue.object props)).errors "name" =
      (ZodType.parse ["name"] (getField props "name")
        (ZodType.string [StringCheck.min 1 "Name is required"])).issues := by
  rw [safeParse_errors, userSchema_issues, fieldErrors_append,
    fieldErrors_same _ _ (ZodType.parse_issues_path _ _ _),
    fieldErrors_other _ "name" "email" (by decide) (ZodType.parse_issues_path _ _ _),
    List.append_nil]

theorem userSchema_emailErrors (props : List (String × JsValue)) :
    fieldErrors (userSchema.safeParse (JsValue.object props)).errors "email" =
      (ZodType.parse ["email"] (getField props "email")
        (ZodType.string [StringCheck.email "Invalid email address"])).issues := by
  rw [safeParse_errors, userSchema_issues, fieldErrors_append,
    fieldErrors_same _ _ (ZodType.parse_issues_path _ _ _),
    fieldErrors_other _ "email" "name" (by decide) (ZodType.parse_issues_path _ _ _),
    List.nil_append]

theorem postSchema_authorIdErrors (props : List (String × JsValue)) :
    fieldErrors (postSchema.safeParse (JsValue.object props)).errors "authorId" =
      (ZodType.parse ["authorId"] (getField props "authorId")
        (ZodType.number [NumberCheck.int, NumberCheck.min 0 false "Invalid author ID"])).issues := by
  rw [safeParse_errors, postSchema_issues, fieldErrors_append, fieldErrors_append,
    fieldErrors_same _ _ (ZodType.parse_issues_path _ _ _),
    fieldErrors_other _ "authorId" "title" (by decide) (ZodType.parse_issues_path _ _ _),
    fieldErrors_other _ "authorId" "content" (by decide) (ZodType.parse_issues_path _ _ _),
    List.nil_append, List.nil_append]

theorem postSchema_titleErrors (props : List (String × JsValue)) :
    fieldErrors (postSchema.safeParse (JsValue.object props)).errors "title" =
      (ZodType.parse ["title"] (getField props "title")
        (ZodType.string [StringCheck.min 1 "Title is required"])).issues := by
  rw [safeParse_errors, postSchema_issues, fieldErrors_append, fieldErrors_append,
    fieldErrors_same _ _ (ZodType.parse_issues_path _ _ _),
    fieldErrors_other _ "title" "content" (by decide) (ZodType.parse_issues_path _ _ _),
    fieldErrors_other _ "title" "authorId" (by decide) (ZodType.parse_issues_path _ _ _),
    List.append_nil, List.append_nil]

theorem postSchema_contentErrors (props : List (String × JsValue)) :
    fieldErrors (postSchema.safeParse (JsValue.object props)).errors "content" =
      (ZodType.parse ["content"] (getField props "content")
        (ZodType.string [StringCheck.min 1 "Content is required"])).issues := by
  rw [safeParse_errors, postSchema_issues, fieldErrors_append, fieldErrors_append,
    fieldErrors_same _ _ (ZodType.parse_issues_path _ _ _),
    fieldErrors_other _ "content" "title" (by decide) (ZodType.parse_issues_path _ _ _),
    fieldErrors_other _ "content" "authorId" (by decide) (ZodType.parse_issues_path _ _ _),
    List.nil_append, List.append_nil]

theorem updatePostSchema_titleErrors (props : List (String × JsValue)) :
    fieldErrors (updatePostSchema.safeParse (JsValue.object props)).errors "title" =
      (ZodType.parse ["title"] (getField props "title")
        (ZodType.optional (ZodType.string []))).issues := by
  rw [safeParse_errors, updatePostSchema_issues, fieldErrors_append, fieldErrors_append,
    fieldErrors_same _ _ (ZodType.parse_issues_path _ _ _),
    fieldErrors_other _ "title" "content" (by decide) (ZodType.parse_issues_path _ _ _),
    fieldErrors_other _ "title" "published" (by decide) (ZodType.parse_issues_path _ _ _),
    List.append_nil, List.append_nil]

theorem updatePostSchema_contentErrors (props : List (String × JsValue)) :
    fieldErrors (updatePostSchema.safeParse (JsValue.object props)).errors "content" =
      (ZodType.parse ["content"] (getField props "content")
        (ZodType.optional (ZodType.string []))).issues := by
  rw [safeParse_errors, updatePostSchema_issues, fieldErrors_append, fieldErrors_append,
    fieldErrors_same _ _ (ZodType.parse_issues_path _ _ _),
    fieldErrors_other _ "content" "title" (by decide) (ZodType.parse_issues_path _ _ _),
    fieldErrors_other _ "content" "published" (by decide) (ZodType.parse_issues_path _ _ _),
    List.nil_append, List.append_nil]

theorem errors_ne_nil_of_fieldErrors (errors : List ZodIssue) (key : String)
    (h : fieldErrors errors key ≠ []) : errors ≠ [] := by
  intro hnil
  apply h
  rw [hnil]
  rfl

theorem safeParse_of_errors_ne_nil (schema : ZodObject) (body : JsValue)
    (h : (schema.safeParse body).errors ≠ []) :
    schema.safeParse body = SafeParseReturn.failure (schema.safeParse body).errors := by
  cases hs : schema.safeParse body with
  | success data => rw [hs] at h; exact absurd rfl h
  | failure errors => rfl

theorem postUsers_of_errors {σ : Type} (prisma : PrismaClient σ) (body : JsValue) (s : σ)
    (h : (userSchema.safeParse body).errors ≠ []) :
    postUsers prisma body s =
      { response :=
          { status := 400, body := ResBody.errorIssues (userSchema.safeParse body).errors },
        store := s, calls := [] } := by
  have hf := safeParse_of_errors_ne_nil _ _ h
  generalize (userSchema.safeParse body).errors = errors at hf
  simp only [postUsers, hf, validationFailed]

theorem postPosts_of_errors {σ : Type} (prisma : PrismaClient σ) (body : JsValue) (s : σ)
    (h : (postSchema.safeParse body).errors ≠ []) :
    postPosts prisma body s =
      { response :=
          { status := 400, body := ResBody.errorIssues (postSchema.safeParse body).errors },
        store := s, calls := [] } := by
  have hf := safeParse_of_errors_ne_nil _ _ h
  generalize (postSchema.safeParse body).errors = errors at hf
  simp only [postPosts, hf, validationFailed]

/-- Claim C3, as amended.  For an input record whose `name` is missing or the empty
string, `POST /users` answers 400 with the validator's error list and makes no call; the
entries for `name` are exactly one entry, with the message "Required" when `name` is
missing and "Name is required" when it is the empty string.  A `name` that is a text of
length at least 1 produces no entry for `name`. -/
theorem name_rule (props : List (String × JsValue)) :
    (hasField props "name" = false →
      fieldErrors (userSchema.safeParse (JsValue.object props)).errors "name" =
        [{ code := "invalid_type", path := ["name"], message := "Required" }]) ∧
    (getField props "name" = JsValue.string "" →
      fieldErrors (userSchema.safeParse (JsValue.object props)).errors "name" =
        [{ code := "too_small", path := ["name"], message := "Name is required" }]) ∧
    (hasField props "name" = false ∨ getField props "name" = JsValue.string "" →
      ∀ (σ : Type) (prisma : PrismaClient σ) (s : σ),
        postUsers prisma (JsValue.object props) s =
          { response :=
              { status := 400,
                body := ResBody.errorIssues (userSchema.safeParse (JsValue.object props)).errors },
            store := s, calls := [] }) ∧
    (∀ t, getField props "name" = JsValue.string t → 1 ≤ t.length →
      fieldErrors (userSchema.safeParse (JsValue.object props)).errors "name" = []) := by
  have hmissing : hasField props "name" = false →
      fieldErrors (userSchema.safeParse (JsValue.object props)).errors "name" =
        [{ code := "invalid_type", path := ["name"], message := "Required" }] := by
    intro h
    rw [userSchema_nameErrors, getField_of_hasField_false _ _ h]
    rfl
  have hempty : getField props "name" = JsValue.string "" →
      fieldErrors (userSchema.safeParse (JsValue.object props)).errors "name" =
        [{ code := "too_small", path := ["name"], message := "Name is required" }] := by
    intro h
    rw [userSchema_nameErrors, h]
    rfl
  refine ⟨hmissing, hempty, ?_, ?_⟩
  · intro h σ prisma s
    apply postUsers_of_errors
    apply errors_ne_nil_of_fieldErrors _ "name"
    rcases h with h | h
    · rw [hmissing h]; simp
    · rw [hempty h]; simp
  · intro t ht hlen
    rw [userSchema_nameErrors, ht]
    have h0 : t.length ≠ 0 := by omega
    simp [ZodType.parse, StringCheck.run, h0]

/-- A missing name yields "Required", an empty name yields "Name is required" and the
response 400, and the name "A" yields no entry for `name`. -/
theorem name_rule_witness :
    (hasField [("email", JsValue.string "ada@example.com")] "name" = false ∧
      fieldErrors
          (userSchema.safeParse
            (JsValue.object [("email", JsValue.string "ada@example.com")])).errors "name" =
        [{ code := "invalid_type", path := ["name"], message := "Required" }]) ∧
    (getField [("name", JsValue.string ""), ("email", JsValue.string "ada@example.com")] "name" =
        JsValue.string "" ∧
      fieldErrors
          (userSchema.safeParse
            (JsValue.object
              [("name", JsValue.string ""), ("email", JsValue.string "ada@example.com")])).errors
          "name" =
        [{ code := "too_small", path := ["name"], message := "Name is required" }]) ∧
    postUsers memStore
        (JsValue.object [("name", JsValue.string ""), ("email", JsValue.string "ada@example.com")])
        Store.sample =
      { response :=
          { status := 400,
            body := ResBody.errorIssues
              (userSchema.safeParse
                (JsValue.object
                  [("name", JsValue.string ""),
                   ("email", JsValue.string "ada@example.com")])).errors },
        store := Store.sample, calls := [] } ∧
    ((getField [("name", JsValue.string "A")] "name" = JsValue.string "A" ∧ 1 ≤ "A".length) ∧
      fieldErrors (userSchema.safeParse (JsValue.object [("name", JsValue.string "A")])).errors
        "name" = []) :=
  ⟨⟨rfl, (name_rule [("email", JsValue.string "ada@example.com")]).1 rfl⟩,
   ⟨rfl,
    (name_rule [("name", JsValue.string ""), ("email", JsValue.string "ada@example.com")]).2.1
      rfl⟩,
   (name_rule [("name", JsValue.string ""), ("email", JsValue.string "ada@example.com")]).2.2.1
      (Or.inr rfl) Store memStore Store.sample,
   ⟨⟨rfl, by decide⟩, (name_rule [("name", JsValue.string "A")]).2.2.2 "A" rfl (by decide)⟩⟩

/-- A body without `name`: the response is 400 and its only entry carries the message
"Required", so no entry carries "Name is required". -/
theorem missing_name_reports_required :
    hasField [("email", JsValue.string "ada@example.com")] "name" = false ∧
    postUsers memStore (JsValue.object [("email", JsValue.string "ada@example.com")]) Store.empty =
      { response :=
          { status := 400,
            body := ResBody.errorIssues
              [{ code := "invalid_type", path := ["name"], message := "Required" }] },
        store := Store.empty, calls := [] } ∧
    ¬ ∃ e ∈ [({ code := "invalid_type", path := ["name"], message := "Required" } : ZodIssue)],
        e.message = "Name is required" :=
  ⟨rfl, rfl, by decide⟩

/-- Claim C4, as amended.  For an input record whose `email` is missing, is not a text, or
is a text without the shape `local@domain.tld` (no `@`, empty local part, domain without
a top-level label after a dot), `POST /users` answers 400 with the validator's error list
and makes no call; the entries for `email` are exactly one entry: "Required" when missing,
the type message "Expected string, received ..." (null, boolean, number, array, object)
when not a text, and "Invalid email address" when the text lacks the shape.  A text
produces no entry for `email` exactly when it has the syntax `EmailSyntax`, as
"ada@example.com" does; every other text gets "Invalid email address" and the response
400, also one that has the shape `local@domain.tld`. -/
theorem email_rule (props : List (String × JsValue)) :
    (hasField props "email" = false →
      fieldErrors (userSchema.safeParse (JsValue.object props)).errors "email" =
        [{ code := "invalid_type", path := ["email"], message := "Required" }]) ∧
    ((∀ t, getField props "email" ≠ JsValue.string t) →
      fieldErrors (userSchema.safeParse (JsValue.object props)).errors "email" =
        [{ code := "invalid_type", path := ["email"],
           message := invalidTypeMessage "string" (getParsedType (getField props "email")).name }]) ∧
    (∀ t, getField props "email" = JsValue.string t → LacksEmailShape t.toList →
      fieldErrors (userSchema.safeParse (JsValue.object props)).errors "email" =
        [{ code := "invalid_string", path := ["email"], message := "Invalid email address" }]) ∧
    ((hasField props "email" = false ∨ (∀ t, getField props "email" ≠ JsValue.string t) ∨
        ∃ t, getField props "email" = JsValue.string t ∧ LacksEmailShape t.toList) →
      ∀ (σ : Type) (prisma : PrismaClient σ) (s : σ),
        postUsers prisma (JsValue.object props) s =
          { response :=
              { status := 400,
                body := ResBody.errorIssues (userSchema.safeParse (JsValue.object props)).errors },
            store := s, calls := [] }) ∧
    (getField props "email" = JsValue.string "ada@example.com" →
      fieldErrors (userSchema.safeParse (JsValue.object props)).errors "email" = []) ∧
    (∀ t, getField props "email" = JsValue.string t →
      (fieldErrors (userSchema.safeParse (JsValue.object props)).errors "email" = [] ↔
        EmailSyntax t.toList)) ∧
    (∀ t, getField props "email" = JsValue.string t → ¬ EmailSyntax t.toList →
      fieldErrors (userSchema.safeParse (JsValue.object props)).errors "email" =
        [{ code := "invalid_string", path := ["email"], message := "Invalid email address" }] ∧
      ∀ (σ : Type) (prisma : PrismaClient σ) (s : σ),
        postUsers prisma (JsValue.object props) s =
          { response :=
              { status := 400,
                body := ResBody.errorIssues (userSchema.safeParse (JsValue.object props)).errors },
            store := s, calls := [] }) ∧
    ((getField props "email" = JsValue.null →
        fieldErrors (userSchema.safeParse (JsValue.object props)).errors "email" =
          [{ code := "invalid_type", path := ["email"],
             message := "Expected string, received null" }]) ∧
      (∀ b, getField props "email" = JsValue.bool b →
        fieldErrors (userSchema.safeParse (JsValue.object props)).errors "email" =
          [{ code := "invalid_type", path := ["email"],
             message := "Expected string, received boolean" }]) ∧
      (∀ n, n ≠ JsNumber.nan → getField props "email" = JsValue.number n →
        fieldErrors (userSchema.safeParse (JsValue.object props)).errors "email" =
          [{ code := "invalid_type", path := ["email"],
             message := "Expected string, received number" }]) ∧
      (∀ items, getField props "email" = JsValue.array items →
        fieldErrors (userSchema.safeParse (JsValue.object props)).errors "email" =
          [{ code := "invalid_type", path := ["email"],
             message := "Expected string, received array" }]) ∧
      (∀ fields, getField props "email" = JsValue.object fields →
        fieldErrors (userSchema.safeParse (JsValue.object props)).errors "email" =
          [{ code := "invalid_type", path := ["email"],
             message := "Expected string, received object" }])) := by
  have hmissing : hasField props "email" = false →
      fieldErrors (userSchema.safeParse (JsValue.object props)).errors "email" =
        [{ code := "invalid_type", path := ["email"], message := "Required" }] := by
    intro h
    rw [userSchema_emailErrors, getField_of_hasField_false _ _ h]
    rfl
  have hnontext : (∀ t, getField props "email" ≠ JsValue.string t) →
      fieldErrors (userSchema.safeParse (JsValue.object props)).errors "email" =
        [{ code := "invalid_type", path := ["email"],
           message := invalidTypeMessage "string" (getParsedType (getField props "email")).name }] := by
    intro h
    rw [userSchema_emailErrors]
    cases hv : getField props "email" with
    | string t => exact absurd hv (h t)
    | _ => rfl
  have hshape : ∀ t, getField props "email" = JsValue.string t → LacksEmailShape t.toList →
      fieldErrors (userSchema.safeParse (JsValue.object props)).errors "email" =
        [{ code := "invalid_string", path := ["email"], message := "Invalid email address" }] := by
    intro t ht hl
    rw [userSchema_emailErrors, ht]
    simp [ZodType.parse, StringCheck.run, emailRegexTest_of_lacksShape t hl]
  have hbad : ∀ t, getField props "email" = JsValue.string t → ¬ EmailSyntax t.toList →
      fieldErrors (userSchema.safeParse (JsValue.object props)).errors "email" =
        [{ code := "invalid_string", path := ["email"], message := "Invalid email address" }] := by
    intro t ht hno
    have htest : emailRegexTest t = false := by
      cases h : emailRegexTest t with
      | false => rfl
      | true => exact absurd ((emailRegexTest_iff t).mp h) hno
    rw [userSchema_emailErrors, ht]
    simp [ZodType.parse, StringCheck.run, htest]
  refine ⟨hmissing, hnontext, hshape, ?_, ?_, ?_, ?_, ?_, ?_, ?_, ?_, ?_⟩
  · intro h σ prisma s
    apply postUsers_of_errors
    apply errors_ne_nil_of_fieldErrors _ "email"
    rcases h with h | h | ⟨t, ht, hl⟩
    · rw [hmissing h]; simp
    · rw [hnontext h]; simp
    · rw [hshape t ht hl]; simp
  · intro h
    rw [userSchema_emailErrors, h]
    rfl
  · intro t ht
    rw [userSchema_emailErrors, ht]
    constructor
    · intro h
      obtain ⟨u, hu, hsyn⟩ := (email_issues _ _ _).mp h
      injection hu with hu
      rw [hu]
      exact hsyn
    · intro h
      exact (email_issues _ _ _).mpr ⟨t, rfl, h⟩
  · intro t ht hno
    refine ⟨hbad t ht hno, fun σ prisma s => ?_⟩
    apply postUsers_of_errors
    apply errors_ne_nil_of_fieldErrors _ "email"
    rw [hbad t ht hno]; simp
  · intro h
    rw [userSchema_emailErrors, h]; rfl
  · intro b h
    rw [userSchema_emailErrors, h]; rfl
  · intro n hn h
    rw [userSchema_emailErrors, h]
    cases n with
    | nan => exact absurd rfl hn
    | _ => rfl
  · intro items h
    rw [userSchema_emailErrors, h]; rfl
  · intro fields h
    rw [userSchema_emailErrors, h]; rfl

/-- A missing e-mail yields "Required", the boolean `true` and `null` yield the type
message, the text "ada@example" (a domain without a dot) yields "Invalid email address" and
the response 400, Ada's address has the syntax and yields no entry for `email`, and the
text "a@b.c" has not the syntax and is answered 400 with "Invalid email address". -/
theorem email_rule_witness :
    (hasField [("name", JsValue.string "Ada")] "email" = false ∧
      fieldErrors (userSchema.safeParse (JsValue.object [("name", JsValue.string "Ada")])).errors
        "email" = [{ code := "invalid_type", path := ["email"], message := "Required" }]) ∧
    ((∀ t, getField [("email", JsValue.bool true)] "email" ≠ JsValue.string t) ∧
      fieldErrors (userSchema.safeParse (JsValue.object [("email", JsValue.bool true)])).errors
        "email" =
        [{ code := "invalid_type", path := ["email"],
           message := "Expected string, received boolean" }]) ∧
    ((getField [("name", JsValue.string "Ada"), ("email", JsValue.string "ada@example")] "email" =
        JsValue.string "ada@example" ∧ LacksEmailShape "ada@example".toList) ∧
      fieldErrors
          (userSchema.safeParse
            (JsValue.object
              [("name", JsValue.string "Ada"), ("email", JsValue.string "ada@example")])).errors
          "email" =
        [{ code := "invalid_string", path := ["email"], message := "Invalid email address" }]) ∧
    postUsers memStore
        (JsValue.object [("name", JsValue.string "Ada"), ("email", JsValue.string "ada@example")])
        Store.sample =
      { response :=
          { status := 400,
            body := ResBody.errorIssues
              (userSchema.safeParse
                (JsValue.object
                  [("name", JsValue.string "Ada"),
                   ("email", JsValue.string "ada@example")])).errors },
        store := Store.sample, calls := [] } ∧
    (adaBody.get "email" = JsValue.string "ada@example.com" ∧
      fieldErrors (userSchema.safeParse adaBody).errors "email" = []) ∧
    (EmailSyntax "ada@example.com".toList ∧
      (fieldErrors (userSchema.safeParse adaBody).errors "email" = [] ↔
        EmailSyntax "ada@example.com".toList)) ∧
    (¬ EmailSyntax "a@b.c".toList ∧
      fieldErrors
          (userSchema.safeParse
            (JsValue.object
              [("name", JsValue.string "Ada"), ("email", JsValue.string "a@b.c")])).errors
          "email" =
        [{ code := "invalid_string", path := ["email"], message := "Invalid email address" }] ∧
      ∀ (σ : Type) (prisma : PrismaClient σ) (s : σ),
        postUsers prisma
            (JsValue.object
              [("name", JsValue.string "Ada"), ("email", JsValue.string "a@b.c")]) s =
          { response :=
              { status := 400,
                body := ResBody.errorIssues
                  (userSchema.safeParse
                    (JsValue.object
                      [("name", JsValue.string "Ada"), ("email", JsValue.string "a@b.c")])).errors },
            store := s, calls := [] }) ∧
    (getField [("email", JsValue.null)] "email" = JsValue.null ∧
      fieldErrors (userSchema.safeParse (JsValue.object [("email", JsValue.null)])).errors
        "email" =
        [{ code := "invalid_type", path := ["email"],
           message := "Expected string, received null" }]) :=
  ⟨⟨rfl, (email_rule [("name", JsValue.string "Ada")]).1 rfl⟩,
   ⟨(fun t h => by cases h),
    (email_rule [("email", JsValue.bool true)]).2.1 (fun t h => by cases h)⟩,
   ⟨⟨rfl, Or.inr (Or.inr ⟨"ada".toList, "example".toList, rfl, Or.inl (by decide)⟩)⟩,
    (email_rule [("name", JsValue.string "Ada"), ("email", JsValue.string "ada@example")]).2.2.1
      "ada@example" rfl (Or.inr (Or.inr ⟨"ada".toList, "example".toList, rfl, Or.inl (by decide)⟩))⟩,
   (email_rule [("name", JsValue.string "Ada"), ("email", JsValue.string "ada@example")]).2.2.2.1
      (Or.inr (Or.inr ⟨"ada@example", rfl,
        Or.inr (Or.inr ⟨"ada".toList, "example".toList, rfl, Or.inl (by decide)⟩)⟩))
      Store memStore Store.sample,
   ⟨rfl,
    (email_rule
      [("id", JsValue.number (JsNumber.finite 99)), ("name", JsValue.string "Ada"),
       ("email", JsValue.string "ada@example.com")]).2.2.2.2.1 rfl⟩,
   ⟨ada_email_wellformed,
    (email_rule
      [("id", JsValue.number (JsNumber.finite 99)), ("name", JsValue.string "Ada"),
       ("email", JsValue.string "ada@example.com")]).2.2.2.2.2.1 "ada@example.com" rfl⟩,
   ⟨one_letter_tld_malformed,
    (email_rule [("name", JsValue.string "Ada"), ("email", JsValue.string "a@b.c")]).2.2.2.2.2.2.1
      "a@b.c" rfl one_letter_tld_malformed⟩,
   ⟨rfl, (email_rule [("email", JsValue.null)]).2.2.2.2.2.2.2.1 rfl⟩⟩

/-- Two inputs against the claim.  A body without `email`: the response is 400 and its only
entry carries the message "Required", so no entry carries "Invalid email address".  And
the text "a@b.c" has the shape `local@domain.tld`, yet it is answered 400 with an entry
for `email`. -/
theorem missing_email_reports_required :
    (hasField [("name", JsValue.string "Ada")] "email" = false ∧
      postUsers memStore (JsValue.object [("name", JsValue.string "Ada")]) Store.empty =
        { response :=
            { status := 400,
              body := ResBody.errorIssues
                [{ code := "invalid_type", path := ["email"], message := "Required" }] },
          store := Store.empty, calls := [] } ∧
      ¬ ∃ e ∈ [({ code := "invalid_type", path := ["email"], message := "Required" } : ZodIssue)],
          e.message = "Invalid email address") ∧
    (¬ LacksEmailShape "a@b.c".toList ∧
      postUsers memStore
          (JsValue.object [("name", JsValue.string "Ada"), ("email", JsValue.string "a@b.c")])
          Store.empty =
        { response :=
            { status := 400,
              body := ResBody.errorIssues
                [{ code := "invalid_string", path := ["email"],
                   message := "Invalid email address" }] },
          store := Store.empty, calls := [] }) :=
  ⟨⟨rfl, rfl, by decide⟩, one_letter_tld_has_shape, rfl⟩

/-- Claim C5, as amended.  For each of the three schemas and every input record, the error
list is made of one group of entries per declared field, in the order of declaration; the
entries of a group name that field; and the group is empty exactly when the field's rule
holds, where the rule for `email` is the syntax `EmailSyntax`.  So every violated field has
at least one entry and no satisfied field has any. -/
theorem validation_reports_every_violation :
    ReportsEveryViolation userSchema userCreateRules ∧
    ReportsEveryViolation postSchema postCreateRules ∧
    ReportsEveryViolation updatePostSchema postUpdateRules := by
  refine ⟨⟨rfl, fun props => ?_⟩, ⟨rfl, fun props => ?_⟩, ⟨rfl, fun props => ?_⟩⟩
  · refine ⟨[(ZodType.parse ["name"] (getField props "name")
        (ZodType.string [StringCheck.min 1 "Name is required"])).issues,
      (ZodType.parse ["email"] (getField props "email")
        (ZodType.string [StringCheck.email "Invalid email address"])).issues], ?_, ?_⟩
    · rw [safeParse_errors, userSchema_issues]; simp
    · refine List.Forall₂.cons ⟨ZodType.parse_issues_path _ _ _, nonEmptyText_issues _ _ _⟩ ?_
      refine List.Forall₂.cons ⟨ZodType.parse_issues_path _ _ _, email_issues _ _ _⟩ ?_
      exact List.Forall₂.nil
  · refine ⟨[(ZodType.parse ["title"] (getField props "title")
        (ZodType.string [StringCheck.min 1 "Title is required"])).issues,
      (ZodType.parse ["content"] (getField props "content")
        (ZodType.string [StringCheck.min 1 "Content is required"])).issues,
      (ZodType.parse ["authorId"] (getField props "authorId")
        (ZodType.number [NumberCheck.int, NumberCheck.min 0 false "Invalid author ID"])).issues],
      ?_, ?_⟩
    · rw [safeParse_errors, postSchema_issues]; simp
    · refine List.Forall₂.cons ⟨ZodType.parse_issues_path _ _ _, nonEmptyText_issues _ _ _⟩ ?_
      refine List.Forall₂.cons ⟨ZodType.parse_issues_path _ _ _, nonEmptyText_issues _ _ _⟩ ?_
      refine List.Forall₂.cons ⟨ZodType.parse_issues_path _ _ _, positiveInteger_issues _ _ _⟩ ?_
      exact List.Forall₂.nil
  · refine ⟨[(ZodType.parse ["title"] (getField props "title")
        (ZodType.optional (ZodType.string []))).issues,
      (ZodType.parse ["content"] (getField props "content")
        (ZodType.optional (ZodType.string []))).issues,
      (ZodType.parse ["published"] (getField props "published")
        (ZodType.optional ZodType.boolean)).issues], ?_, ?_⟩
    · rw [safeParse_errors, updatePostSchema_issues]; simp
    · refine List.Forall₂.cons ⟨ZodType.parse_issues_path _ _ _, optionalText_issues _ _⟩ ?_
      refine List.Forall₂.cons ⟨ZodType.parse_issues_path _ _ _, optionalText_issues _ _⟩ ?_
      refine List.Forall₂.cons ⟨ZodType.parse_issues_path _ _ _, optionalBoolean_issues _ _⟩ ?_
      exact List.Forall₂.nil

/-- The examples of the claim: an empty name with a malformed e-mail yields an entry for
`name` followed by one for `email`; a post violating title, content and author yields the
three entries in that order; Ada's body yields none. -/
theorem validation_reports_every_violation_witness :
    (∃ groups : List (List ZodIssue),
      (userSchema.safeParse
          (JsValue.object
            [("name", JsValue.string ""), ("email", JsValue.string "nope")])).errors =
        groups.flatten ∧
      List.Forall₂
        (fun group rule =>
          (∀ e ∈ group, e.path = [rule.1]) ∧
          (group = [] ↔
            rule.2 (getField [("name", JsValue.string ""), ("email", JsValue.string "nope")]
              rule.1)))
        groups userCreateRules) ∧
    (userSchema.safeParse
        (JsValue.object [("name", JsValue.string ""), ("email", JsValue.string "nope")])).errors =
      [{ code := "too_small", path := ["name"], message := "Name is required" },
       { code := "invalid_string", path := ["email"], message := "Invalid email address" }] ∧
    (postSchema.safeParse
        (JsValue.object
          [("title", JsValue.string ""), ("content", JsValue.string ""),
           ("authorId", JsValue.number (JsNumber.finite 0))])).errors =
      [{ code := "too_small", path := ["title"], message := "Title is required" },
       { code := "too_small", path := ["content"], message := "Content is required" },
       { code := "too_small", path := ["authorId"], message := "Invalid author ID" }] ∧
    (userSchema.safeParse adaBody).errors = [] :=
  ⟨validation_reports_every_violation.1.2
      [("name", JsValue.string ""), ("email", JsValue.string "nope")],
   rfl, rfl, rfl⟩

/-- With the rule for `email` worded as the specification does, the shape
`local@domain.tld`, the claim fails: "bob@site.x" has the shape, yet the error list holds
an entry for `email`. -/
theorem shape_rule_entry_for_satisfied_email :
    emailShapeRule (getField [("name", JsValue.string "Bob"), ("email", JsValue.string "bob@site.x")]
      "email") ∧
    (userSchema.safeParse
        (JsValue.object
          [("name", JsValue.string "Bob"), ("email", JsValue.string "bob@site.x")])).errors =
      [{ code := "invalid_string", path := ["email"], message := "Invalid email address" }] ∧
    ¬ ReportsEveryViolation userSchema userCreateShapeRules := by
  have hshape : emailShapeRule
      (getField [("name", JsValue.string "Bob"), ("email", JsValue.string "bob@site.x")]
        "email") :=
    ⟨"bob@site.x", rfl,
      has_shape_of_cut "bob".toList "site.x".toList (by decide) (by decide) (by decide)
        (by decide) (by decide)⟩
  refine ⟨hshape, rfl, ?_⟩
  rintro ⟨_, h⟩
  obtain ⟨groups, herr, hall⟩ :=
    h [("name", JsValue.string "Bob"), ("email", JsValue.string "bob@site.x")]
  cases hall with
  | cons h1 hrest =>
    cases hrest with
    | cons h2 hnil =>
      cases hnil
      have e1 := h1.2.mpr (by decide)
      have e2 := h2.2.mpr hshape
      rw [e1, e2] at herr
      have hrfl : (userSchema.safeParse
          (JsValue.object
            [("name", JsValue.string "Bob"), ("email", JsValue.string "bob@site.x")])).errors =
          [{ code := "invalid_string", path := ["email"], message := "Invalid email address" }] :=
        rfl
      rw [hrfl] at herr
      simp at herr

/-- Claim C2, as amended.  For an input record whose `authorId` is missing, not a number,
not an integer or not strictly positive, `POST /posts` answers 400 with an error list that
has an entry for `authorId`, and makes no call.  The entries for `authorId` are: "Required"
when it is missing; "Expected number, received ..." with the type (null, boolean, string,
array, object, nan) when it is not a number; for a finite number,
"Expected integer, received float" when it is not an integer followed by
"Invalid author ID" when it is not strictly positive; "Expected integer, received float"
for `Infinity`, and that followed by "Invalid author ID" for `-Infinity`.  So an entry
carries "Invalid author ID" exactly when `authorId` is a number that is not strictly
positive.  A strictly positive integer produces no entry for `authorId`. -/
theorem authorId_rule (props : List (String × JsValue)) :
    (hasField props "authorId" = false →
      fieldErrors (postSchema.safeParse (JsValue.object props)).errors "authorId" =
        [{ code := "invalid_type", path := ["authorId"], message := "Required" }]) ∧
    (∀ t, getField props "authorId" = JsValue.string t →
      fieldErrors (postSchema.safeParse (JsValue.object props)).errors "authorId" =
        [{ code := "invalid_type", path := ["authorId"],
           message := "Expected number, received string" }]) ∧
    (∀ q : ℚ, getField props "authorId" = JsValue.number (JsNumber.finite q) →
      fieldErrors (postSchema.safeParse (JsValue.object props)).errors "authorId" =
        (if q.den = 1 then []
          else [{ code := "invalid_type", path := ["authorId"],
                  message := "Expected integer, received float" }]) ++
        (if 0 < q then []
          else [{ code := "too_small", path := ["authorId"], message := "Invalid author ID" }])) ∧
    (positiveIntegerRule (getField props "authorId") = false →
      fieldErrors (postSchema.safeParse (JsValue.object props)).errors "authorId" ≠ [] ∧
      ∀ (σ : Type) (prisma : PrismaClient σ) (s : σ),
        postPosts prisma (JsValue.object props) s =
          { response :=
              { status := 400,
                body := ResBody.errorIssues (postSchema.safeParse (JsValue.object props)).errors },
            store := s, calls := [] }) ∧
    (positiveIntegerRule (getField props "authorId") = true →
      fieldErrors (postSchema.safeParse (JsValue.object props)).errors "authorId" = []) ∧
    (getField props "authorId" = JsValue.undefined →
      fieldErrors (postSchema.safeParse (JsValue.object props)).errors "authorId" =
          [{ code := "invalid_type", path := ["authorId"], message := "Required" }]) ∧
    (getField props "authorId" = JsValue.null →
      fieldErrors (postSchema.safeParse (JsValue.object props)).errors "authorId" =
          [{ code := "invalid_type", path := ["authorId"], message := "Expected number, received null" }]) ∧
    (∀ b, getField props "authorId" = JsValue.bool b →
      fieldErrors (postSchema.safeParse (JsValue.object props)).errors "authorId" =
          [{ code := "invalid_type", path := ["authorId"], message := "Expected number, received boolean" }]) ∧
    (∀ items, getField props "authorId" = JsValue.array items →
      fieldErrors (postSchema.safeParse (JsValue.object props)).errors "authorId" =
          [{ code := "invalid_type", path := ["authorId"], message := "Expected number, received array" }]) ∧
    (∀ fields, getField props "authorId" = JsValue.object fields →
      fieldErrors (postSchema.safeParse (JsValue.object props)).errors "authorId" =
          [{ code := "invalid_type", path := ["authorId"], message := "Expected number, received object" }]) ∧
    (getField props "authorId" = JsValue.number JsNumber.nan →
      fieldErrors (postSchema.safeParse (JsValue.object props)).errors "authorId" =
          [{ code := "invalid_type", path := ["authorId"], message := "Expected number, received nan" }]) ∧
    (getField props "authorId" = JsValue.number JsNumber.posInf →
      fieldErrors (postSchema.safeParse (JsValue.object props)).errors "authorId" =
          [{ code := "invalid_type", path := ["authorId"], message := "Expected integer, received float" }]) ∧
    (getField props "authorId" = JsValue.number JsNumber.negInf →
      fieldErrors (postSchema.safeParse (JsValue.object props)).errors "authorId" =
          [{ code := "invalid_type", path := ["authorId"], message := "Expected integer, received float" },
           { code := "too_small", path := ["authorId"], message := "Invalid author ID" }]) ∧
    ((∃ e ∈ fieldErrors (postSchema.safeParse (JsValue.object props)).errors "authorId",
        e.message = "Invalid author ID") ↔
      ((∃ q : ℚ, getField props "authorId" = JsValue.number (JsNumber.finite q) ∧ q ≤ 0) ∨
        getField props "authorId" = JsValue.number JsNumber.negInf)) := by
  have hfinite : ∀ q : ℚ, getField props "authorId" = JsValue.number (JsNumber.finite q) →
      fieldErrors (postSchema.safeParse (JsValue.object props)).errors "authorId" =
        (if q.den = 1 then []
          else [{ code := "invalid_type", path := ["authorId"],
                  message := "Expected integer, received float" }]) ++
        (if 0 < q then []
          else [{ code := "too_small", path := ["authorId"], message := "Invalid author ID" }]) := by
    intro q h
    rw [postSchema_authorIdErrors, h]
    by_cases h1 : q.den = 1 <;> by_cases h2 : 0 < q <;>
      simp [ZodType.parse, NumberCheck.run, statusOfIssues, JsNumber.isInteger,
        JsNumber.leFinite, h1, h2, invalidTypeMessage, not_le.mpr, le_of_not_lt]
  refine ⟨?_, ?_, hfinite, ?_, ?_, ?_, ?_, ?_, ?_, ?_, ?_, ?_, ?_, ?_⟩
  · intro h
    rw [postSchema_authorIdErrors, getField_of_hasField_false _ _ h]
    rfl
  · intro t h
    rw [postSchema_authorIdErrors, h]
    rfl
  · intro h
    have hne : fieldErrors (postSchema.safeParse (JsValue.object props)).errors "authorId" ≠ [] := by
      rw [postSchema_authorIdErrors]
      intro hnil
      rw [(positiveInteger_issues _ _ _).mp hnil] at h
      cases h
    exact ⟨hne, fun σ prisma s =>
      postPosts_of_errors prisma _ s (errors_ne_nil_of_fieldErrors _ "authorId" hne)⟩
  · intro h
    rw [postSchema_authorIdErrors]
    exact (positiveInteger_issues _ _ _).mpr h
  · intro h
    rw [postSchema_authorIdErrors, h]; rfl
  · intro h
    rw [postSchema_authorIdErrors, h]; rfl
  · intro b h
    rw [postSchema_authorIdErrors, h]; rfl
  · intro items h
    rw [postSchema_authorIdErrors, h]; rfl
  · intro fields h
    rw [postSchema_authorIdErrors, h]; rfl
  · intro h
    rw [postSchema_authorIdErrors, h]; rfl
  · intro h
    rw [postSchema_authorIdErrors, h]; rfl
  · intro h
    rw [postSchema_authorIdErrors, h]; rfl
  · cases hv : getField props "authorId" with
    | number n =>
      cases n with
      | finite q =>
        rw [hfinite q hv]
        by_cases h1 : q.den = 1 <;> by_cases h2 : 0 < q <;>
          simp [h1, h2, not_le.mpr, le_of_not_lt]
      | posInf => rw [postSchema_authorIdErrors, hv]; simp [ZodType.parse, NumberCheck.run,
          JsNumber.isInteger, JsNumber.leFinite, invalidTypeMessage]
      | negInf => rw [postSchema_authorIdErrors, hv]; simp [ZodType.parse, NumberCheck.run,
          JsNumber.isInteger, JsNumber.leFinite, invalidTypeMessage]
      | nan => rw [postSchema_authorIdErrors, hv]; simp [ZodType.parse, ParseReturn.invalid,
          invalidTypeIssue, invalidTypeMessage, getParsedType, ZodParsedType.name]
    | _ =>
      rw [postSchema_authorIdErrors, hv]
      simp [ZodType.parse, ParseReturn.invalid, invalidTypeIssue, invalidTypeMessage,
        getParsedType, ZodParsedType.name]

/-- A missing author yields "Required"; the author `-1` yields the single entry
"Invalid author ID", status 400 and no call; the author `0` is answered 400; the author
`1` yields no entry for `authorId`; the text "1", `null` and `true` yield the type message;
`1.5` and `Infinity` yield "Expected integer, received float". -/
theorem authorId_rule_witness :
    (hasField [("title", JsValue.string "T"), ("content", JsValue.string "C")] "authorId" =
        false ∧
      fieldErrors
          (postSchema.safeParse
            (JsValue.object
              [("title", JsValue.string "T"), ("content", JsValue.string "C")])).errors
          "authorId" =
        [{ code := "invalid_type", path := ["authorId"], message := "Required" }]) ∧
    (getField
          [("title", JsValue.string "T"), ("content", JsValue.string "C"),
           ("authorId", JsValue.number (JsNumber.finite (-1)))] "authorId" =
        JsValue.number (JsNumber.finite (-1)) ∧
      fieldErrors
          (postSchema.safeParse (postBody (JsValue.number (JsNumber.finite (-1))))).errors
          "authorId" =
        (if ((-1 : ℚ)).den = 1 then []
          else [{ code := "invalid_type", path := ["authorId"],
                  message := "Expected integer, received float" }]) ++
        (if 0 < (-1 : ℚ) then []
          else [{ code := "too_small", path := ["authorId"], message := "Invalid author ID" }])) ∧
    (positiveIntegerRule
          (getField
            [("title", JsValue.string "T"), ("content", JsValue.string "C"),
             ("authorId", JsValue.number (JsNumber.finite 0))] "authorId") = false ∧
      postPosts memStore (postBody (JsValue.number (JsNumber.finite 0))) Store.sample =
        { response :=
            { status := 400,
              body := ResBody.errorIssues
                (postSchema.safeParse (postBody (JsValue.number (JsNumber.finite 0)))).errors },
          store := Store.sample, calls := [] }) ∧
    postPosts memStore (postBody (JsValue.number (JsNumber.finite (-1)))) Store.sample =
      { response :=
          { status := 400,
            body := ResBody.errorIssues
              [{ code := "too_small", path := ["authorId"], message := "Invalid author ID" }] },
        store := Store.sample, calls := [] } ∧
    (positiveIntegerRule
          (getField
            [("title", JsValue.string "T"), ("content", JsValue.string "C"),
             ("authorId", JsValue.number (JsNumber.finite 1))] "authorId") = true ∧
      fieldErrors
          (postSchema.safeParse (postBody (JsValue.number (JsNumber.finite 1)))).errors
          "authorId" = []) ∧
    ((postBody (JsValue.string "1")).get "authorId" = JsValue.string "1" ∧
      fieldErrors (postSchema.safeParse (postBody (JsValue.string "1"))).errors "authorId" =
        [{ code := "invalid_type", path := ["authorId"],
           message := "Expected number, received string" }]) ∧
    ((postBody (JsValue.number (JsNumber.finite (3 / 2)))).get "authorId" =
        JsValue.number (JsNumber.finite (3 / 2)) ∧
      fieldErrors (postSchema.safeParse (postBody (JsValue.number (JsNumber.finite (3 / 2))))).errors
          "authorId" =
        (if ((3 / 2 : ℚ)).den = 1 then []
          else [{ code := "invalid_type", path := ["authorId"],
                  message := "Expected integer, received float" }]) ++
        (if 0 < (3 / 2 : ℚ) then []
          else [{ code := "too_small", path := ["authorId"], message := "Invalid author ID" }])) ∧
    ((postBody JsValue.null).get "authorId" = JsValue.null ∧
      fieldErrors (postSchema.safeParse (postBody JsValue.null)).errors "authorId" =
        [{ code := "invalid_type", path := ["authorId"],
           message := "Expected number, received null" }]) ∧
    ((postBody (JsValue.bool true)).get "authorId" = JsValue.bool true ∧
      fieldErrors (postSchema.safeParse (postBody (JsValue.bool true))).errors "authorId" =
        [{ code := "invalid_type", path := ["authorId"],
           message := "Expected number, received boolean" }]) ∧
    ((postBody (JsValue.number JsNumber.posInf)).get "authorId" =
        JsValue.number JsNumber.posInf ∧
      fieldErrors (postSchema.safeParse (postBody (JsValue.number JsNumber.posInf))).errors
          "authorId" =
        [{ code := "invalid_type", path := ["authorId"],
           message := "Expected integer, received float" }]) ∧
    ((∃ e ∈ fieldErrors (postSchema.safeParse (postBody (JsValue.string "1"))).errors "authorId",
        e.message = "Invalid author ID") ↔
      ((∃ q : ℚ,
          getField
            [("title", JsValue.string "T"), ("content", JsValue.string "C"),
             ("authorId", JsValue.string "1")] "authorId" =
            JsValue.number (JsNumber.finite q) ∧ q ≤ 0) ∨
        getField
          [("title", JsValue.string "T"), ("content", JsValue.string "C"),
           ("authorId", JsValue.string "1")] "authorId" = JsValue.number JsNumber.negInf)) :=
  ⟨⟨rfl,
    (authorId_rule [("title", JsValue.string "T"), ("content", JsValue.string "C")]).1 rfl⟩,
   ⟨rfl,
    (authorId_rule
      [("title", JsValue.string "T"), ("content", JsValue.string "C"),
       ("authorId", JsValue.number (JsNumber.finite (-1)))]).2.2.1 (-1) rfl⟩,
   ⟨rfl,
    ((authorId_rule
      [("title", JsValue.string "T"), ("content", JsValue.string "C"),
       ("authorId", JsValue.number (JsNumber.finite 0))]).2.2.2.1 rfl).2
      Store memStore Store.sample⟩,
   rfl,
   ⟨rfl,
    (authorId_rule
      [("title", JsValue.string "T"), ("content", JsValue.string "C"),
       ("authorId", JsValue.number (JsNumber.finite 1))]).2.2.2.2.1 rfl⟩,
   ⟨rfl,
    (authorId_rule
      [("title", JsValue.string "T"), ("content", JsValue.string "C"),
       ("authorId", JsValue.string "1")]).2.1 "1" rfl⟩,
   ⟨rfl,
    (authorId_rule
      [("title", JsValue.string "T"), ("content", JsValue.string "C"),
       ("authorId", JsValue.number (JsNumber.finite (3 / 2)))]).2.2.1 (3 / 2) rfl⟩,
   ⟨rfl,
    (authorId_rule
      [("title", JsValue.string "T"), ("content", JsValue.string "C"),
       ("authorId", JsValue.null)]).2.2.2.2.2.2.1 rfl⟩,
   ⟨rfl,
    (authorId_rule
      [("title", JsValue.string "T"), ("content", JsValue.string "C"),
       ("authorId", JsValue.bool true)]).2.2.2.2.2.2.2.1 true rfl⟩,
   ⟨rfl,
    (authorId_rule
      [("title", JsValue.string "T"), ("content", JsValue.string "C"),
       ("authorId", JsValue.number JsNumber.posInf)]).2.2.2.2.2.2.2.2.2.2.2.1 rfl⟩,
   (authorId_rule
      [("title", JsValue.string "T"), ("content", JsValue.string "C"),
       ("authorId", JsValue.string "1")]).2.2.2.2.2.2.2.2.2.2.2.2.2⟩

/-- The author identifier given as the text "1", with valid title and content: the
response is 400 and its only entry carries "Expected number, received string", so no entry
carries "Invalid author ID". -/
theorem text_authorId_reports_type :
    postPosts memStore
        (JsValue.object
          [("title", JsValue.string "T"), ("content", JsValue.string "C"),
           ("authorId", JsValue.string "1")]) Store.sample =
      { response :=
          { status := 400,
            body := ResBody.errorIssues
              [{ code := "invalid_type", path := ["authorId"],
                 message := "Expected number, received string" }] },
        store := Store.sample, calls := [] } ∧
    ¬ ∃ e ∈ [({ code := "invalid_type", path := ["authorId"],
                message := "Expected number, received string" } : ZodIssue)],
        e.message = "Invalid author ID" :=
  ⟨rfl, by decide⟩

theorem safeParse_success_of_issues_nil (schema : ZodObject) (body : JsValue)
    (h : (schema.parse body).issues = []) :
    ∃ data, schema.safeParse body = SafeParseReturn.success data := by
  have hs := (ZodObject.parse_valid_iff schema body).mpr h
  exact ⟨(schema.parse body).value, by simp [ZodObject.safeParse, hs]⟩

theorem optionalTextRule_string (t : String) : optionalTextRule (JsValue.string t) = true := rfl

theorem putPosts_calls_of_success (id : String) (props : List (String × JsValue))
    (σ : Type) (prisma : PrismaClient σ) (s : σ) (data : JsValue)
    (h : updatePostSchema.safeParse (JsValue.object props) = SafeParseReturn.success data) :
    (putPosts prisma id (JsValue.object props) s).calls =
      [PrismaCall.postUpdate (parseInt id)
        (JsValue.object
          [("title", getField props "title"), ("content", getField props "content"),
           ("published", getField props "published")])] := by
  obtain ⟨_, _, _, h1, h2, h3⟩ := updatePostSchema_success props data h
  simp only [putPosts, h, tryCall_calls, h1, h2, h3]

/-- Claim C10, as amended.  A `PUT /posts/:id` body whose `title` (or `content`) is the
empty string produces no PostUpdate entry for that field; when its other fields satisfy
PostUpdate the validation succeeds; and whenever validation succeeds the store is asked to
set that field to the empty string.  PostCreate rejects the same value with
"Title is required" (or "Content is required"). -/
theorem update_accepts_empty_text (id : String) (props : List (String × JsValue)) :
    (getField props "title" = JsValue.string "" →
      fieldErrors (updatePostSchema.safeParse (JsValue.object props)).errors "title" = [] ∧
      (optionalTextRule (getField props "content") = true →
        optionalBooleanRule (getField props "published") = true →
        ∃ data, updatePostSchema.safeParse (JsValue.object props) = SafeParseReturn.success data) ∧
      (∀ (σ : Type) (prisma : PrismaClient σ) (s : σ) (data : JsValue),
        updatePostSchema.safeParse (JsValue.object props) = SafeParseReturn.success data →
        (putPosts prisma id (JsValue.object props) s).calls =
          [PrismaCall.postUpdate (parseInt id)
            (JsValue.object
              [("title", JsValue.string ""), ("content", getField props "content"),
               ("published", getField props "published")])]) ∧
      fieldErrors (postSchema.safeParse (JsValue.object props)).errors "title" =
        [{ code := "too_small", path := ["title"], message := "Title is required" }]) ∧
    (getField props "content" = JsValue.string "" →
      fieldErrors (updatePostSchema.safeParse (JsValue.object props)).errors "content" = [] ∧
      (optionalTextRule (getField props "title") = true →
        optionalBooleanRule (getField props "published") = true →
        ∃ data, updatePostSchema.safeParse (JsValue.object props) = SafeParseReturn.success data) ∧
      (∀ (σ : Type) (prisma : PrismaClient σ) (s : σ) (data : JsValue),
        updatePostSchema.safeParse (JsValue.object props) = SafeParseReturn.success data →
        (putPosts prisma id (JsValue.object props) s).calls =
          [PrismaCall.postUpdate (parseInt id)
            (JsValue.object
              [("title", getField props "title"), ("content", JsValue.string ""),
               ("published", getField props "published")])]) ∧
      fieldErrors (postSchema.safeParse (JsValue.object props)).errors "content" =
        [{ code := "too_small", path := ["content"], message := "Content is required" }]) := by
  constructor
  · intro h
    refine ⟨?_, ?_, ?_, ?_⟩
    · rw [updatePostSchema_titleErrors, h]; rfl
    · intro hc hp
      apply safeParse_success_of_issues_nil
      rw [updatePostSchema_issues, (optionalText_issues _ _).mpr hc,
        (optionalBoolean_issues _ _).mpr hp, h]
      rfl
    · intro σ prisma s data hd
      have := ((putPosts_calls_of_success id props) σ prisma s data hd)
      rw [this, h]
    · rw [postSchema_titleErrors, h]; rfl
  · intro h
    refine ⟨?_, ?_, ?_, ?_⟩
    · rw [updatePostSchema_contentErrors, h]; rfl
    · intro ht hp
      apply safeParse_success_of_issues_nil
      rw [updatePostSchema_issues, (optionalText_issues _ _).mpr ht,
        (optionalBoolean_issues _ _).mpr hp, h]
      rfl
    · intro σ prisma s data hd
      have := ((putPosts_calls_of_success id props) σ prisma s data hd)
      rw [this, h]
    · rw [postSchema_contentErrors, h]; rfl

/-- The bodies with an empty title and with an empty content pass PostUpdate; on the
reference store the post's field becomes the empty string, which PostCreate would have
rejected. -/
theorem update_accepts_empty_text_witness :
    getField [("title", JsValue.string "")] "title" = JsValue.string "" ∧
    (fieldErrors
        (updatePostSchema.safeParse (JsValue.object [("title", JsValue.string "")])).errors
        "title" = [] ∧
      (optionalTextRule (getField [("title", JsValue.string "")] "content") = true →
        optionalBooleanRule (getField [("title", JsValue.string "")] "published") = true →
        ∃ data, updatePostSchema.safeParse (JsValue.object [("title", JsValue.string "")]) =
          SafeParseReturn.success data) ∧
      (∀ (σ : Type) (prisma : PrismaClient σ) (s : σ) (data : JsValue),
        updatePostSchema.safeParse (JsValue.object [("title", JsValue.string "")]) =
          SafeParseReturn.success data →
        (putPosts prisma "1" (JsValue.object [("title", JsValue.string "")]) s).calls =
          [PrismaCall.postUpdate (parseInt "1")
            (JsValue.object
              [("title", JsValue.string ""),
               ("content", getField [("title", JsValue.string "")] "content"),
               ("published", getField [("title", JsValue.string "")] "published")])]) ∧
      fieldErrors
        (postSchema.safeParse (JsValue.object [("title", JsValue.string "")])).errors "title" =
        [{ code := "too_small", path := ["title"], message := "Title is required" }]) ∧
    (putPosts memStore "1" (JsValue.object [("title", JsValue.string "")])
        Store.sample).response.status = 200 ∧
    (putPosts memStore "1" (JsValue.object [("title", JsValue.string "")])
        Store.sample).store.posts =
      [{ id := 1, title := "", content := "First post", published := false, authorId := 1 }] ∧
    (getField [("content", JsValue.string "")] "content" = JsValue.string "" ∧
      (putPosts memStore "1" (JsValue.object [("content", JsValue.string "")]) Store.sample).calls =
        [PrismaCall.postUpdate (parseInt "1")
          (JsValue.object
            [("title", getField [("content", JsValue.string "")] "title"),
             ("content", JsValue.string ""),
             ("published", getField [("content", JsValue.string "")] "published")])] ∧
      (putPosts memStore "1" (JsValue.object [("content", JsValue.string "")])
          Store.sample).store.posts =
        [{ id := 1, title := "Hello", content := "", published := false, authorId := 1 }]) :=
  ⟨rfl, (update_accepts_empty_text "1" [("title", JsValue.string "")]).1 rfl, rfl, rfl,
   ⟨rfl,
    ((update_accepts_empty_text "1" [("content", JsValue.string "")]).2 rfl).2.2.1
      Store memStore Store.sample (JsValue.object [("content", JsValue.string "")]) rfl,
    rfl⟩⟩

/-- A body whose title is the empty string and whose `published` is a text fails
PostUpdate: the response is 400 and the store is not asked anything. -/
theorem empty_title_with_bad_published_rejected :
    getField [("title", JsValue.string ""), ("published", JsValue.string "yes")] "title" =
      JsValue.string "" ∧
    putPosts memStore "1"
        (JsValue.object [("title", JsValue.string ""), ("published", JsValue.string "yes")])
        Store.sample =
      { response :=
          { status := 400,
            body := ResBody.errorIssues
              [{ code := "invalid_type", path := ["published"],
                 message := "Expected boolean, received string" }] },
        store := Store.sample, calls := [] } :=
  ⟨rfl, rfl⟩

/-! ## Path identifiers -/

theorem isDigit_iff (c : Char) : c.isDigit = true ↔ 48 ≤ c.toNat ∧ c.toNat ≤ 57 := by
  simp [Char.isDigit, Char.toNat, UInt32.le_def, Fin.le_def]
  rfl

theorem not_whitespace_of_isDigit (c : Char) (h : c.isDigit = true) :
    isStrWhiteSpaceChar c = false := by
  obtain ⟨h1, h2⟩ := (isDigit_iff c).mp h
  unfold isStrWhiteSpaceChar
  simp only [Bool.or_eq_false_iff, beq_eq_false_iff_ne, Bool.and_eq_false_iff, decide_eq_false_iff_not]
  omega

theorem digitValue_of_isDigit (radix : Nat) (c : Char) (h : c.isDigit = true) :
    digitValue radix c = some (c.toNat - '0'.toNat) := by
  simp [digitValue, h]

theorem digitValue_ten_of_not_isDigit (c : Char) (h : c.isDigit = false) :
    digitValue 10 c = none := by
  simp [digitValue, h]

theorem dropWhile_append_of_all (p : Char → Bool) (ws l : List Char) (h : ∀ c ∈ ws, p c = true) :
    (ws ++ l).dropWhile p = l.dropWhile p := by
  induction ws with
  | nil => rfl
  | cons x xs ih =>
    have hx := h x (List.mem_cons_self _ _)
    simp only [List.cons_append, List.dropWhile_cons, hx, if_true]
    exact ih (fun c hc => h c (List.mem_cons_of_mem _ hc))

theorem leadingDigits_append (digits rest : List Char) (hdig : ∀ c ∈ digits, c.isDigit = true)
    (hrest : ∀ c, rest.head? = some c → c.isDigit = false) :
    leadingDigits 10 (digits ++ rest) = digits.map (fun c => c.toNat - '0'.toNat) := by
  induction digits with
  | nil =>
    cases rest with
    | nil => rfl
    | cons x xs =>
      simp [leadingDigits, digitValue_ten_of_not_isDigit x (hrest x rfl)]
  | cons d ds ih =>
    simp only [List.cons_append, leadingDigits,
      digitValue_of_isDigit 10 d (hdig d (List.mem_cons_self _ _)), List.map_cons]
    exact congrArg (List.cons _) (ih (fun c hc => hdig c (List.mem_cons_of_mem _ hc)))

theorem stripSign_of_digit (d : Char) (t : List Char) (h : d.isDigit = true) :
    stripSign (d :: t) = (false, d :: t) := by
  have h1 : d ≠ '-' := by rintro rfl; revert h; decide
  have h2 : d ≠ '+' := by rintro rfl; revert h; decide
  unfold stripSign
  split
  · rename_i heq; injection heq with heq _; exact absurd heq h1
  · rename_i heq; injection heq with heq _; exact absurd heq h2
  · rfl

theorem stripRadixPrefix_of_decimal (digits rest : List Char) (hne : digits ≠ [])
    (hdig : ∀ c ∈ digits, c.isDigit = true)
    (hhex : ¬ (digits = ['0'] ∧ (rest.head? = some 'x' ∨ rest.head? = some 'X'))) :
    stripRadixPrefix (digits ++ rest) = (10, digits ++ rest) := by
  unfold stripRadixPrefix
  split
  · rename_i r heq
    exfalso
    cases digits with
    | nil => exact hne rfl
    | cons d ds =>
      cases ds with
      | nil =>
        simp only [List.singleton_append, List.cons.injEq] at heq
        apply hhex
        refine ⟨by rw [heq.1], Or.inl ?_⟩
        rw [heq.2]; rfl
      | cons e es =>
        simp only [List.cons_append, List.cons.injEq] at heq
        have := hdig e (by simp)
        rw [heq.2.1] at this
        revert this; decide
  · rename_i r heq
    exfalso
    cases digits with
    | nil => exact hne rfl
    | cons d ds =>
      cases ds with
      | nil =>
        simp only [List.singleton_append, List.cons.injEq] at heq
        apply hhex
        refine ⟨by rw [heq.1], Or.inr ?_⟩
        rw [heq.2]; rfl
      | cons e es =>
        simp only [List.cons_append, List.cons.injEq] at heq
        have := hdig e (by simp)
        rw [heq.2.1] at this
        revert this; decide
  · rfl

theorem roundToDouble_of_small (n : Nat) (h : n < 2 ^ 53) :
    roundToDouble n = JsNumber.finite (n : ℚ) := by
  unfold roundToDouble
  rw [if_pos h]

theorem stripSign_of_digits (digits rest : List Char) (hne : digits ≠ [])
    (hdig : ∀ c ∈ digits, c.isDigit = true) :
    stripSign (digits ++ rest) = (false, digits ++ rest) := by
  obtain ⟨d, ds, rfl⟩ := List.exists_cons_of_ne_nil hne
  exact stripSign_of_digit d _ (hdig d (List.mem_cons_self _ _))

theorem parseInt_tail (negative : Bool) (text : List Char) (value : Nat)
    (h1 : stripRadixPrefix text = (10, text)) (h2 : (leadingDigits 10 text).isEmpty = false)
    (h3 : digitsValue 10 (leadingDigits 10 text) = value) (hv : value < 2 ^ 53) :
    (if (leadingDigits (stripRadixPrefix text).1 (stripRadixPrefix text).2).isEmpty = true then
        JsNumber.nan
      else
        if negative = true then
          (roundToDouble (digitsValue (stripRadixPrefix text).1
            (leadingDigits (stripRadixPrefix text).1 (stripRadixPrefix text).2))).neg
        else
          roundToDouble (digitsValue (stripRadixPrefix text).1
            (leadingDigits (stripRadixPrefix text).1 (stripRadixPrefix text).2))) =
      if negative = true then JsNumber.finite (-(value : ℚ)) else JsNumber.finite (value : ℚ) := by
  rw [h1]
  simp only [h2, h3, roundToDouble_of_small _ hv]
  cases negative <;> simp [JsNumber.neg]

theorem parseInt_of_decimal (ws sign digits rest : List Char)
    (hws : ∀ c ∈ ws, isStrWhiteSpaceChar c = true)
    (hsign : sign = [] ∨ sign = ['+'] ∨ sign = ['-'])
    (hne : digits ≠ []) (hdig : ∀ c ∈ digits, c.isDigit = true)
    (hrest : ∀ c, rest.head? = some c → c.isDigit = false)
    (hhex : ¬ (digits = ['0'] ∧ (rest.head? = some 'x' ∨ rest.head? = some 'X')))
    (hsmall : decimalValue digits < 2 ^ 53) :
    parseInt (String.mk (ws ++ sign ++ digits ++ rest)) =
      signedInteger sign (decimalValue digits) := by
  have hlead := leadingDigits_append digits rest hdig hrest
  have hradix := stripRadixPrefix_of_decimal digits rest hne hdig hhex
  have hempty : (leadingDigits 10 (digits ++ rest)).isEmpty = false := by
    rw [hlead]
    obtain ⟨d, ds, rfl⟩ := List.exists_cons_of_ne_nil hne
    rfl
  have hval : digitsValue 10 (leadingDigits 10 (digits ++ rest)) = decimalValue digits := by
    rw [hlead]; rfl
  have hfirst : ∀ t : List Char, (digits ++ t).dropWhile isStrWhiteSpaceChar = digits ++ t := by
    intro t
    obtain ⟨d, ds, rfl⟩ := List.exists_cons_of_ne_nil hne
    simp [List.dropWhile, not_whitespace_of_isDigit d (hdig d (List.mem_cons_self _ _))]
  have htrim : (ws ++ sign ++ digits ++ rest).dropWhile isStrWhiteSpaceChar =
      sign ++ (digits ++ rest) := by
    rw [List.append_assoc, List.append_assoc, dropWhile_append_of_all _ _ _ hws]
    rcases hsign with h | h | h <;> subst h
    · exact hfirst rest
    · rfl
    · rfl
  have key := parseInt_tail
  unfold parseInt
  simp only [String.toList, htrim]
  rcases hsign with h | h | h <;> subst h
  · simp only [List.nil_append, stripSign_of_digits digits rest hne hdig]
    exact (key false _ _ hradix hempty hval hsmall).trans (by simp [signedInteger])
  · simp only [List.singleton_append, stripSign]
    exact (key false _ _ hradix hempty hval hsmall).trans (by simp [signedInteger])
  · simp only [List.singleton_append, stripSign]
    exact (key true _ _ hradix hempty hval hsmall).trans (by simp [signedInteger])

theorem stripSign_split (t : List Char) :
    ∃ sign, t = sign ++ (stripSign t).2 ∧ (sign = [] ∨ sign = ['+'] ∨ sign = ['-']) := by
  unfold stripSign
  split
  · exact ⟨['-'], rfl, Or.inr (Or.inr rfl)⟩
  · exact ⟨['+'], rfl, Or.inr (Or.inl rfl)⟩
  · exact ⟨[], rfl, Or.inl rfl⟩

theorem head_digit_of_leadingDigits (t : List Char)
    (h : (leadingDigits (stripRadixPrefix t).1 (stripRadixPrefix t).2).isEmpty = false) :
    ∃ d r, t = d :: r ∧ d.isDigit = true := by
  unfold stripRadixPrefix at h
  split at h
  · exact ⟨'0', _, rfl, by decide⟩
  · exact ⟨'0', _, rfl, by decide⟩
  · cases t with
    | nil => simp [leadingDigits] at h
    | cons c r =>
      refine ⟨c, r, rfl, ?_⟩
      cases hc : c.isDigit with
      | true => rfl
      | false =>
        simp [leadingDigits, digitValue_ten_of_not_isDigit c hc] at h

theorem parseInt_nan_of_no_prefix (text : String) (h : ¬ HasIntegerPrefix text.toList) :
    parseInt text = JsNumber.nan := by
  unfold parseInt
  simp only
  rw [if_pos]
  by_contra hne
  apply h
  simp only [Bool.not_eq_true] at hne
  obtain ⟨d, r, hdr, hd⟩ := head_digit_of_leadingDigits _ hne
  obtain ⟨sign, hs, hsign⟩ := stripSign_split (text.toList.dropWhile isStrWhiteSpaceChar)
  refine ⟨text.toList.takeWhile isStrWhiteSpaceChar, sign, [d], r, ?_, ?_, hsign, by simp, ?_⟩
  · rw [List.append_assoc, List.append_assoc, List.singleton_append, ← hdr, ← hs,
      List.takeWhile_append_dropWhile]
  · intro c hc
    exact List.mem_takeWhile_imp hc
  · intro c hc
    rw [List.mem_singleton.mp hc]
    exact hd

/-- Claim C9, as amended.  For a path text made of white space, an optional sign, a
non-empty maximal run of decimal digits whose value is below `2^53`, and any trailing
characters, where the text after the sign does not start with `0x` or `0X`, the
identifier sent to the store by `PUT /posts/:id`, `DELETE /posts/:id` and
`DELETE /users/:id` is the signed integer value of the digit run, the same as for the text
without the trailing characters.  For a path text with no such prefix the handler still
calls the store, with the identifier NaN. -/
theorem path_id_is_leading_integer {σ : Type} (prisma : PrismaClient σ) (s : σ) :
    (∀ ws sign digits rest : List Char,
      (∀ c ∈ ws, isStrWhiteSpaceChar c = true) → (sign = [] ∨ sign = ['+'] ∨ sign = ['-']) →
      digits ≠ [] → (∀ c ∈ digits, c.isDigit = true) →
      (∀ c, rest.head? = some c → c.isDigit = false) →
      ¬ (digits = ['0'] ∧ (rest.head? = some 'x' ∨ rest.head? = some 'X')) →
      decimalValue digits < 2 ^ 53 →
      parseInt (String.mk (ws ++ sign ++ digits ++ rest)) =
        signedInteger sign (decimalValue digits) ∧
      parseInt (String.mk (ws ++ sign ++ digits)) = signedInteger sign (decimalValue digits) ∧
      (deletePosts prisma (String.mk (ws ++ sign ++ digits ++ rest)) s).calls =
        [PrismaCall.postDelete (signedInteger sign (decimalValue digits))] ∧
      (deleteUsers prisma (String.mk (ws ++ sign ++ digits ++ rest)) s).calls =
        [PrismaCall.userDelete (signedInteger sign (decimalValue digits))] ∧
      ∀ body data, updatePostSchema.safeParse body = SafeParseReturn.success data →
        (putPosts prisma (String.mk (ws ++ sign ++ digits ++ rest)) body s).calls =
          [PrismaCall.postUpdate (signedInteger sign (decimalValue digits))
            (JsValue.object
              [("title", data.get "title"), ("content", data.get "content"),
               ("published", data.get "published")])]) ∧
    (∀ id : String, ¬ HasIntegerPrefix id.toList →
      parseInt id = JsNumber.nan ∧
      (deletePosts prisma id s).calls = [PrismaCall.postDelete JsNumber.nan] ∧
      (deleteUsers prisma id s).calls = [PrismaCall.userDelete JsNumber.nan] ∧
      ∀ body data, updatePostSchema.safeParse body = SafeParseReturn.success data →
        (putPosts prisma id body s).calls =
          [PrismaCall.postUpdate JsNumber.nan
            (JsValue.object
              [("title", data.get "title"), ("content", data.get "content"),
               ("published", data.get "published")])]) := by
  constructor
  · intro ws sign digits rest hws hsign hne hdig hrest hhex hsmall
    have h1 := parseInt_of_decimal ws sign digits rest hws hsign hne hdig hrest hhex hsmall
    have h2 := parseInt_of_decimal ws sign digits [] hws hsign hne hdig (by simp) (by simp) hsmall
    rw [List.append_nil] at h2
    refine ⟨h1, h2, ?_, ?_, ?_⟩
    · simp only [deletePosts, tryCall_calls, h1]
    · simp only [deleteUsers, tryCall_calls, h1]
    · intro body data hd
      simp only [putPosts, hd, tryCall_calls, h1]
  · intro id hno
    have h1 := parseInt_nan_of_no_prefix id hno
    refine ⟨h1, ?_, ?_, ?_⟩
    · simp only [deletePosts, tryCall_calls, h1]
    · simp only [deleteUsers, tryCall_calls, h1]
    · intro body data hd
      simp only [putPosts, hd, tryCall_calls, h1]

theorem abc_has_no_integer_prefix : ¬ HasIntegerPrefix "abc".toList := by
  rintro ⟨ws, sign, digits, rest, h, hws, hsign, hne, hdig⟩
  obtain ⟨d, ds, rfl⟩ := List.exists_cons_of_ne_nil hne
  have hd := hdig d (List.mem_cons_self _ _)
  cases ws with
  | cons w ws1 =>
    have hw := hws w (List.mem_cons_self _ _)
    simp only [List.cons_append] at h
    injection h with h1 _
    rw [← h1] at hw
    revert hw; decide
  | nil =>
    rcases hsign with hs | hs | hs <;> subst hs
    · simp only [List.nil_append, List.cons_append] at h
      injection h with h1 _
      rw [← h1] at hd
      revert hd; decide
    · simp only [List.nil_append, List.cons_append] at h
      injection h with h1 _
      revert h1; decide
    · simp only [List.nil_append, List.cons_append] at h
      injection h with h1 _
      revert h1; decide

/-- The path text " -12.9" addresses the row -12, as " -12" does; "12abc" addresses the
row 12; and "abc", which has no integer prefix, is sent to the store as NaN. -/
theorem path_id_is_leading_integer_witness :
    ((∀ c ∈ [' '], isStrWhiteSpaceChar c = true) ∧
      (∀ c ∈ ['1', '2'], c.isDigit = true) ∧ decimalValue ['1', '2'] < 2 ^ 53) ∧
    (parseInt " -12.9" = signedInteger ['-'] (decimalValue ['1', '2']) ∧
      parseInt " -12" = signedInteger ['-'] (decimalValue ['1', '2']) ∧
      (deletePosts memStore " -12.9" Store.sample).calls =
        [PrismaCall.postDelete (signedInteger ['-'] (decimalValue ['1', '2']))]) ∧
    signedInteger ['-'] (decimalValue ['1', '2']) = JsNumber.finite (-12) ∧
    (deleteUsers memStore "12abc" Store.sample).calls =
      [PrismaCall.userDelete (signedInteger [] (decimalValue ['1', '2']))] ∧
    signedInteger [] (decimalValue ['1', '2']) = JsNumber.finite 12 ∧
    ¬ HasIntegerPrefix "abc".toList ∧
    (deletePosts memStore "abc" Store.sample).calls = [PrismaCall.postDelete JsNumber.nan] :=
  ⟨⟨by decide, by decide, by decide⟩,
   ⟨((path_id_is_leading_integer memStore Store.sample).1 [' '] ['-'] ['1', '2'] ['.', '9']
      (by decide) (Or.inr (Or.inr rfl)) (by decide) (by decide) (by decide) (by decide)
      (by decide)).1,
    ((path_id_is_leading_integer memStore Store.sample).1 [' '] ['-'] ['1', '2'] ['.', '9']
      (by decide) (Or.inr (Or.inr rfl)) (by decide) (by decide) (by decide) (by decide)
      (by decide)).2.1,
    ((path_id_is_leading_integer memStore Store.sample).1 [' '] ['-'] ['1', '2'] ['.', '9']
      (by decide) (Or.inr (Or.inr rfl)) (by decide) (by decide) (by decide) (by decide)
      (by decide)).2.2.1⟩,
   by decide,
   ((path_id_is_leading_integer memStore Store.sample).1 [] [] ['1', '2'] ['a', 'b', 'c']
      (by decide) (Or.inl rfl) (by decide) (by decide) (by decide) (by decide)
      (by decide)).2.2.2.1,
   by decide,
   abc_has_no_integer_prefix,
   ((path_id_is_leading_integer memStore Store.sample).2 "abc" abc_has_no_integer_prefix).2.1⟩

/-- The path text "0x1F" is the digit run "0" followed by "x1F", yet the identifier sent to
the store is 31, while the text "0" sends 0. -/
theorem hex_prefix_changes_identifier :
    "0x1F".toList = [] ++ [] ++ ['0'] ++ ['x', '1', 'F'] ∧
    decimalValue ['0'] = 0 ∧
    (deletePosts memStore "0x1F" Store.sample).calls =
      [PrismaCall.postDelete (JsNumber.finite 31)] ∧
    (deletePosts memStore "0" Store.sample).calls = [PrismaCall.postDelete (JsNumber.finite 0)] :=
  ⟨rfl, rfl, rfl, rfl⟩

end VlogBackend
